import Mathlib

/-!
# Orchestro: deployment orchestration engine

A shallow embedding of `src/api/main.go` and `src/api/orchestrator/docker.go`.

* Go strings are Lean `String`s, a Go `error` is an `Option String` (`none` is `nil`,
  `some msg` is an error whose `Error()` text is `msg`).
* Byte buffers are lists of `Byte` (`Fin 256`); Go `int` is 64 bits wide, so the frame
  size computed by the log handler (below `2^32`) never wraps. The port default
  `3000 + int(project.ID)` is computed with 64-bit wrap-around.
* The record store is the list of `Deployment` rows in insertion order. `Create` appends a
  row under the primary key chosen by the store (an input of the run), `Save` overwrites
  the row with the key of the record, `Updates` overwrites two columns of it, and every
  store call succeeds. Theorems about an arbitrary store assume what a primary key gives:
  keys are unique and non-zero.
* Everything outside the process (git, the file system, the container daemon) is an
  oracle record holding the result of each call; every call and every hub publication is
  appended to the `trace` of the `World`, oldest first. File system paths and prints to
  standard output are not recorded.
* A handler runs as one step: `handleDeploy`, the pause handler and the resume handler are
  functions from the world before to the world after.
* The path parameter `id` of the pause and resume routes is the project key it denotes.
* The trigger routes start a run with `go handleDeploy(...)`; a started run is an entry of
  `Server.running`. How overlapping runs interleave on the store is not modelled.
-/

namespace Orchestro

/-! ## Runtime logs handler: the demultiplexing loop (`main.go`, lines 142-161) -/

/-- One byte of a Go `[]byte`. -/
abbrev Byte := Fin 256

/-- The declared payload size of the frame at the head of `data`:
`int(data[4])<<24 | int(data[5])<<16 | int(data[6])<<8 | int(data[7])`. -/
def frameSize (data : List Byte) : Nat :=
  ((data.getD 4 0).val <<< 24) ||| ((data.getD 5 0).val <<< 16) |||
    ((data.getD 6 0).val <<< 8) ||| (data.getD 7 0).val

/-- The loop `for len(data) > 8 { ... }`. Each iteration either breaks or drops at least
eight bytes, so `fuel` counts iterations; `none` means the fuel ran out. -/
def demuxLoop : Nat → List Byte → List Byte → Option (List Byte)
  | 0, _, _ => none
  | fuel + 1, data, output =>
    if data.length > 8 then
      let size := frameSize data
      let stop := 8 + size
      if stop > data.length then
        some (output ++ data.drop 8)
      else
        demuxLoop fuel (data.drop stop) (output ++ (data.take stop).drop 8)
    else
      some output

/-- The body written by the handler for the bytes `read = buf[:n]` returned by the single
`reader.Read(buf)`: the demultiplexed output, or the raw bytes when that output is empty
and `n > 0` (the fallback of line 157). -/
def runtimeLogsOutput (read : List Byte) : Option (List Byte) :=
  match demuxLoop (read.length + 1) read [] with
  | none => none
  | some output => if output = [] ∧ read.length > 0 then some read else some output

/-! ### Frames, as the specification describes them -/

/-- A frame of the multiplexed stream: selector byte, three reserved bytes, payload. -/
structure Frame where
  selector : Byte
  reserved1 : Byte
  reserved2 : Byte
  reserved3 : Byte
  payload : List Byte
deriving DecidableEq

/-- Byte `k` (0 is least significant) of the big-endian length field. -/
def lengthByte (len k : Nat) : Byte :=
  ⟨(len / 2 ^ (8 * k)) % 256, Nat.mod_lt _ (by decide)⟩

/-- The eight header bytes announcing a payload of `len` bytes. -/
def frameHeader (sel r1 r2 r3 : Byte) (len : Nat) : List Byte :=
  [sel, r1, r2, r3, lengthByte len 3, lengthByte len 2, lengthByte len 1, lengthByte len 0]

/-- A complete frame on the wire: header, then exactly the declared payload. -/
def Frame.encode (f : Frame) : List Byte :=
  frameHeader f.selector f.reserved1 f.reserved2 f.reserved3 f.payload.length ++ f.payload

/-- Concatenation of complete frames. -/
def encodeFrames : List Frame → List Byte
  | [] => []
  | f :: fs => f.encode ++ encodeFrames fs

/-- Concatenation of the payloads, in order. -/
def payloadsOf : List Frame → List Byte
  | [] => []
  | f :: fs => f.payload ++ payloadsOf fs

/-- The length field has four bytes, so a frame can announce fewer than `2^32` bytes. -/
def Frame.WellFormed (f : Frame) : Prop := f.payload.length < 2 ^ 32

instance (f : Frame) : Decidable f.WellFormed := by
  unfold Frame.WellFormed; infer_instance

/-! ## Data model (`models/models.go`) -/

/-- Go: `type DeploymentStatus string`. -/
abbrev DeploymentStatus := String

abbrev StatusPending : DeploymentStatus := "pending"
abbrev StatusBuilding : DeploymentStatus := "building"
abbrev StatusReady : DeploymentStatus := "ready"
abbrev StatusFailed : DeploymentStatus := "failed"
abbrev StatusPaused : DeploymentStatus := "paused"
abbrev StatusCancelled : DeploymentStatus := "cancelled"

/-- The ad-hoc status written by the retirement step of `handleDeploy` (line 575). -/
abbrev statusOutdated : DeploymentStatus := "outdated"

structure EnvVar where
  ID : Nat
  ProjectID : Nat
  Key : String
  Value : String
deriving DecidableEq

structure Volume where
  ID : Nat
  ProjectID : Nat
  HostPath : String
  ContainerPath : String
deriving DecidableEq

/-- The fields of `models.Project` that the pipeline reads. `ID` is a Go `uint`,
the two ports are Go `int`s. -/
structure Project where
  ID : Nat
  RepoURL : String
  Branch : String
  RootDirectory : String
  BuildCommand : String
  InstallCommand : String
  StartCommand : String
  CustomPort : Int
  InternalPort : Int
  EnvVars : List EnvVar
  Volumes : List Volume
deriving DecidableEq

structure Deployment where
  ID : Nat
  ProjectID : Nat
  CreatedAt : Nat
  Status : DeploymentStatus
  CommitHash : String
  Logs : String
  ContainerID : String
  Port : Int
  IsPaused : Bool
deriving DecidableEq

/-! ## The world the handlers act on -/

/-- Everything a handler does besides computing: hub publications, external commands,
runtime client calls (with the result they returned) and store writes. -/
inductive Effect where
  | broadcastStatus (projectID : Nat) (status : String) (port : Int)
  | broadcastLogs (projectID : Nat) (line : String)
  | gitClone (branch repoURL : String)
  | gitFetch (branch : String)
  | gitReset (branch : String)
  | writeDockerfile (content : String) (err : Option String)
  | buildImage (imageName dockerfileName : String) (buildArgs : List (String × String))
  | stopContainer (containerID : String) (err : Option String)
  | startContainer (containerID : String) (err : Option String)
  | removeContainer (containerID : String) (err : Option String)
  | runContainer (imageName containerName : String) (port internalPort : Int)
      (env volumes : List String) (containerID : String) (err : Option String)
  | dbCreate (d : Deployment)
  | dbSave (d : Deployment)
  | dbRetire (id : Nat)
deriving DecidableEq

/-- Modelled from the spec: the event hub (`newHub`, `BroadcastStatus`, `BroadcastLogs`) is
not among the source files; section 4.3 says the two wrappers construct the two event kinds
the system publishes, so a publication is recorded as the corresponding `Effect`. -/
def Effect.isEvent : Effect → Bool
  | .broadcastStatus _ _ _ => true
  | .broadcastLogs _ _ => true
  | _ => false

/-- The deployment table and the trace of effects so far, oldest first. -/
structure World where
  db : List Deployment
  trace : List Effect
deriving DecidableEq

def World.emit (w : World) (e : Effect) : World :=
  { w with trace := w.trace ++ [e] }

/-- Rows after `db.Save(d)`: every column of the row with the primary key of `d` is
overwritten; when no row has that key the record is inserted. -/
def saveRow (d : Deployment) (rows : List Deployment) : List Deployment :=
  if rows.any (fun r => r.ID == d.ID) then
    rows.map (fun r => if r.ID = d.ID then d else r)
  else
    rows ++ [d]

/-- Rows after `db.Model(&oldDep).Updates({"container_id": "", "status": "outdated"})`:
the two columns of the row with that primary key are overwritten. -/
def retireRow (id : Nat) (rows : List Deployment) : List Deployment :=
  rows.map (fun r => if r.ID = id then { r with ContainerID := "", Status := statusOutdated } else r)

/-- The query `db.Where("project_id = ? AND container_id != ''", id).Find(...)`. -/
def findLive (projectID : Nat) (rows : List Deployment) : List Deployment :=
  rows.filter (fun r => r.ProjectID == projectID && r.ContainerID != "")

/-- Insertion into a list ordered by descending `ID`. -/
def insertByIDDesc (d : Deployment) : List Deployment → List Deployment
  | [] => [d]
  | x :: xs => if x.ID ≤ d.ID then d :: x :: xs else x :: insertByIDDesc d xs

/-- The clause `Order("id DESC")`. -/
def orderByIDDesc : List Deployment → List Deployment
  | [] => []
  | d :: ds => insertByIDDesc d (orderByIDDesc ds)

/-- The call `db.Create(&deployment)`: the row is appended. -/
def World.create (w : World) (d : Deployment) : World :=
  { db := w.db ++ [d], trace := w.trace ++ [.dbCreate d] }

def World.save (w : World) (d : Deployment) : World :=
  { db := saveRow d w.db, trace := w.trace ++ [.dbSave d] }

def World.retire (w : World) (id : Nat) : World :=
  { db := retireRow id w.db, trace := w.trace ++ [.dbRetire id] }

/-! ## Error texts -/

/-- Go: `err.Error()`, used only where `err != nil`. -/
def errorText (err : Option String) : String := err.getD ""

def startsWithChars : List Char → List Char → Bool
  | _, [] => true
  | [], _ :: _ => false
  | c :: cs, p :: ps => c == p && startsWithChars cs ps

def containsChars : List Char → List Char → Bool
  | [], sub => sub.isEmpty
  | c :: cs, sub => startsWithChars (c :: cs) sub || containsChars cs sub

/-- Go: `strings.Contains(s, sub)`. -/
def strContains (s sub : String) : Bool := containsChars s.data sub.data

/-! ## Runtime client (`orchestrator/docker.go`) -/

/-- One decoded progress message `{stream, error}` of the build stream. -/
structure BuildMsg where
  stream : String
  error : String
deriving DecidableEq

/-- What the daemon does during one `BuildImage` call: the result of creating the archive,
of the build request, the messages the decoder yields, and how the stream ends after them
(`none` is `io.EOF`, `some e` a decoding failure). -/
structure BuildDaemon where
  tarErr : Option String
  requestErr : Option String
  messages : List BuildMsg
  decodeErr : Option String
deriving DecidableEq

/-- The decoding loop of `BuildImage` (lines 55-77). `logs` is `buildLogs`, `s` the state
the callback `onLog` acts on. -/
def buildLoop {σ : Type} (onLog : Option (String → σ → σ)) (decodeErr : Option String) :
    List BuildMsg → String → σ → (String × Option String) × σ
  | [], logs, s =>
    match decodeErr with
    | none => ((logs, none), s)
    | some e => ((logs, some ("failed to decode build log: " ++ e)), s)
  | msg :: rest, logs, s =>
    let s1 := if msg.stream ≠ "" then (match onLog with | some f => f msg.stream s | none => s) else s
    let logs1 := if msg.stream ≠ "" then logs ++ msg.stream else logs
    if msg.error ≠ "" then
      ((logs1, some ("docker build error: " ++ msg.error)), s1)
    else
      buildLoop onLog decodeErr rest logs1 s1

/-- `DockerOrchestrator.BuildImage`: returns `(buildLogs, err)` and the state left by the
callback. -/
def BuildImage {σ : Type} (d : BuildDaemon) (onLog : Option (String → σ → σ)) (s : σ) :
    (String × Option String) × σ :=
  match d.tarErr with
  | some e => (("", some ("failed to create tar: " ++ e)), s)
  | none =>
    match d.requestErr with
    | some e => (("", some ("docker build request failed: " ++ e)), s)
    | none => buildLoop onLog d.decodeErr d.messages "" s

/-- What the daemon does during one `RunContainer` call. -/
structure RunDaemon where
  createErr : Option String
  createdID : String
  startErr : Option String
deriving DecidableEq

/-- `DockerOrchestrator.RunContainer`: `("", err)` when the create call fails, the created
identity together with the error when the start call fails. -/
def RunContainer (d : RunDaemon) : String × Option String :=
  match d.createErr with
  | some e => ("", some e)
  | none =>
    match d.startErr with
    | some e => (d.createdID, some e)
    | none => (d.createdID, none)

/-! ## Pipeline engine (`handleDeploy`, `main.go` lines 433-613) -/

/-- Result of `cmd.CombinedOutput()`. -/
structure CmdResult where
  out : String
  failed : Bool
deriving DecidableEq

/-- The outcome of every external call of one `handleDeploy` run. `newID` is the primary
key and `now` the creation time the store assigns on `Create`. -/
structure DeployEnv where
  newID : Nat
  now : Nat
  gitDirMissing : Bool
  clone : CmdResult
  fetch : CmdResult
  reset : CmdResult
  dockerfileMissing : Bool
  bunLockExists : Bool
  writeErr : Option String
  build : BuildDaemon
  stopErr : String → Option String
  removeErr : String → Option String
  run : RunDaemon

/-- Go `int(x)` and `int` addition on a 64-bit platform. -/
def wrapInt64 (x : Int) : Int := (x + 2 ^ 63) % 2 ^ 64 - 2 ^ 63

/-- `updateDeploymentStatus` (lines 649-653); returns the mutated record as well. -/
def updateDeploymentStatus (w : World) (d : Deployment) (status : DeploymentStatus)
    (logs : String) : World × Deployment :=
  let d1 := { d with Status := status, Logs := logs }
  (w.save d1, d1)

/-- The shared failure exit: `updateDeploymentStatus(db, &deployment, StatusFailed, logs)`,
`hub.BroadcastStatus(project.ID, "failed", 0)`, `return`. -/
def failDeployment (project : Project) (d : Deployment) (logs : String) (w : World) : World :=
  (updateDeploymentStatus w d StatusFailed logs).1.emit (.broadcastStatus project.ID StatusFailed 0)

/-- Source sync (lines 448-472): the world afterwards and the failure log, if any. -/
def sourceSync (env : DeployEnv) (project : Project) (w : World) : World × Option String :=
  if env.gitDirMissing then
    let w1 := (w.emit (.broadcastLogs project.ID "Cloning repository...\n")).emit
      (.gitClone project.Branch project.RepoURL)
    if env.clone.failed then (w1, some ("Git clone failed: " ++ env.clone.out)) else (w1, none)
  else
    let w1 := (w.emit (.broadcastLogs project.ID "Updating repository...\n")).emit
      (.gitFetch project.Branch)
    if env.fetch.failed then (w1, some ("Git fetch failed: " ++ env.fetch.out))
    else
      let w2 := w1.emit (.gitReset project.Branch)
      if env.reset.failed then (w2, some ("Git reset failed: " ++ env.reset.out)) else (w2, none)

/-- The `fmt.Sprintf` template of lines 519-535. -/
def dockerfileContent (envInject lockfile installCmd buildStep : String) (intPort : Int)
    (startCmd : String) : String :=
  "\n# Build Stage\nFROM oven/bun:latest AS builder\nWORKDIR /app\n" ++ envInject ++
  "\nCOPY package.json " ++ lockfile ++ " ./\nRUN " ++ installCmd ++ "\nCOPY . .\n" ++
  buildStep ++ "\n\n# Production Stage\nFROM oven/bun:latest\nWORKDIR /app\n" ++
  "COPY --from=builder /app ./\nEXPOSE " ++ toString intPort ++
  "\nCMD [\"sh\", \"-c\", \"" ++ startCmd ++ "\"]\n"

/-- The text `handleDeploy` synthesizes for a project (lines 487-535). -/
def synthesizedDockerfile (bunLockExists : Bool) (project : Project) : String :=
  let installCmd := if project.InstallCommand = "" then "bun install" else project.InstallCommand
  let buildCmd := project.BuildCommand
  let buildStep := if buildCmd ≠ "" then "RUN " ++ buildCmd else ""
  let startCmd := if project.StartCommand = "" then "bun run start" else project.StartCommand
  let lockfile := if bunLockExists then "bun.lock*" else "bun.lockb*"
  let buildArgsList := project.EnvVars.map
    (fun ev => "ARG " ++ ev.Key ++ "\nENV " ++ ev.Key ++ "=$" ++ ev.Key)
  let envInject := String.intercalate "\n" buildArgsList
  let intPort := if project.InternalPort = 0 then 80 else project.InternalPort
  dockerfileContent envInject lockfile installCmd buildStep intPort startCmd

/-- Build-context resolution (lines 482-544): the world afterwards and the failure log. -/
def resolveRecipe (env : DeployEnv) (project : Project) (w : World) : World × Option String :=
  let forceBuild := project.BuildCommand != "" || project.InstallCommand != ""
  if env.dockerfileMissing || forceBuild then
    let w1 := (w.emit (.broadcastLogs project.ID "Generating build pipeline...\n")).emit
      (.writeDockerfile (synthesizedDockerfile env.bunLockExists project) env.writeErr)
    match env.writeErr with
    | some e => (w1, some ("Failed to generate Dockerfile: " ++ e))
    | none => (w1, none)
  else
    (w, none)

/-- Retirement of the previous instances (lines 566-577). -/
def retireOld (env : DeployEnv) (project : Project) (w : World) : World :=
  (findLive project.ID w.db).foldl
    (fun acc oldDep =>
      (((acc.emit (.stopContainer oldDep.ContainerID (env.stopErr oldDep.ContainerID))).emit
        (.removeContainer oldDep.ContainerID (env.removeErr oldDep.ContainerID))).retire oldDep.ID))
    w

/-- The external port (lines 583-586). -/
def deployPort (project : Project) : Int :=
  if project.CustomPort = 0 then wrapInt64 (3000 + wrapInt64 project.ID) else project.CustomPort

/-- Launch and finalize (lines 579-612), for the deployment record as it stands after the
build. -/
def launch (env : DeployEnv) (project : Project) (deployment : Deployment) (imageName : String)
    (w : World) : World :=
  let containerName := "orchestro-c" ++ toString project.ID ++ "-" ++ toString deployment.ID
  let w1 := w.emit (.broadcastLogs project.ID "Starting container...\n")
  let port := deployPort project
  let envList := project.EnvVars.map (fun ev => ev.Key ++ "=" ++ ev.Value)
  let volumes := project.Volumes.map (fun v => v.HostPath ++ ":" ++ v.ContainerPath)
  let res := RunContainer env.run
  let containerID := res.1
  let err := res.2
  let w2 := w1.emit
    (.runContainer imageName containerName port project.InternalPort envList volumes containerID err)
  match err with
  | some e =>
    let w3 := if containerID ≠ "" then
        w2.emit (.removeContainer containerID (env.removeErr containerID))
      else w2
    failDeployment project deployment ("Failed to run container: " ++ e) w3
  | none =>
    let d1 := { deployment with ContainerID := containerID, Port := port }
    (updateDeploymentStatus w2 d1 StatusReady (d1.Logs ++ "\nDeployment successful")).1.emit
      (.broadcastStatus project.ID StatusReady port)

/-- The record inserted at the start of a run (lines 434-438). -/
def newDeployment (env : DeployEnv) (project : Project) : Deployment :=
  { ID := env.newID, ProjectID := project.ID, CreatedAt := env.now, Status := StatusBuilding,
    CommitHash := "", Logs := "", ContainerID := "", Port := 0, IsPaused := false }

/-- One pipeline run. Standard-output prints and the creation of the base directory are
left out. -/
def handleDeploy (env : DeployEnv) (project : Project) (w0 : World) : World :=
  let deployment := newDeployment env project
  let w1 := (w0.create deployment).emit (.broadcastStatus project.ID StatusBuilding 0)
  let synced := sourceSync env project w1
  match synced.2 with
  | some diag => failDeployment project deployment diag synced.1
  | none =>
    let resolved := resolveRecipe env project synced.1
    match resolved.2 with
    | some diag => failDeployment project deployment diag resolved.1
    | none =>
      let imageName := "orchestro-p" ++ toString project.ID
      let buildArgs := project.EnvVars.map (fun ev => (ev.Key, ev.Value))
      let w4 := resolved.1.emit (.buildImage imageName "Dockerfile" buildArgs)
      let built := BuildImage env.build
        (some (fun line (acc : World) => acc.emit (.broadcastLogs project.ID line))) w4
      let buildLogs := built.1.1
      let d1 := { deployment with Logs := buildLogs }
      match built.1.2 with
      | some e =>
        failDeployment project d1 ("Build failed: " ++ e ++ "\nLogs:\n" ++ buildLogs) built.2
      | none =>
        launch env project d1 imageName (retireOld env project (built.2.save d1))

/-! ## Pause and resume handlers (`main.go`, lines 366-426) -/

/-- The status code and the single JSON member of a handler response. -/
structure Response where
  code : Nat
  key : String
  text : String
deriving DecidableEq

/-- `POST /projects/:id/pause`; `stopErr` is the result of `orch.StopContainer`. -/
def pauseHandler (stopErr : String → Option String) (id : Nat) (w : World) : World × Response :=
  match orderByIDDesc (findLive id w.db) with
  | latest :: _ =>
    let err := stopErr latest.ContainerID
    let w1 := w.emit (.stopContainer latest.ContainerID err)
    if err.isNone || strContains (errorText err) "already stopped" then
      let d1 := { latest with Status := StatusPaused, IsPaused := true }
      (((w1.save d1).emit (.broadcastStatus d1.ProjectID StatusPaused d1.Port)),
        ⟨200, "message", "Project paused"⟩)
    else if strContains (errorText err) "No such container" then
      let d1 := { latest with Status := StatusFailed, ContainerID := "" }
      (w1.save d1, ⟨400, "error", "Container no longer exists"⟩)
    else
      (w1, ⟨500, "error", errorText err⟩)
  | [] => (w, ⟨400, "error", "No running container found to pause"⟩)

/-- `POST /projects/:id/resume`; `startErr` is the result of `orch.StartContainer`. -/
def resumeHandler (startErr : String → Option String) (id : Nat) (w : World) : World × Response :=
  match orderByIDDesc (findLive id w.db) with
  | latest :: _ =>
    let err := startErr latest.ContainerID
    let w1 := w.emit (.startContainer latest.ContainerID err)
    if err.isNone || strContains (errorText err) "already started" then
      let d1 := { latest with Status := StatusReady, IsPaused := false }
      (((w1.save d1).emit (.broadcastStatus d1.ProjectID StatusReady d1.Port)),
        ⟨200, "message", "Project resumed"⟩)
    else if strContains (errorText err) "No such container" then
      let d1 := { latest with Status := StatusFailed, ContainerID := "" }
      (w1.save d1, ⟨400, "error", "Container no longer exists"⟩)
    else
      (w1, ⟨500, "error", errorText err⟩)
  | [] => (w, ⟨400, "error", "No paused container found to resume"⟩)

/-! ## Deployment triggers (`main.go`, lines 279-318 and 354-364) -/

/-- Go: `strings.TrimPrefix(s, pre)`. -/
def trimLeading (s pre : String) : String :=
  if startsWithChars s.data pre.data then ⟨s.data.drop pre.data.length⟩ else s

/-- The pipeline runs in progress: one entry for each goroutine started by
`go handleDeploy(db, orch, hub, project)` that has not returned yet, oldest first. What the
runs do to the store while they overlap is not part of this state. -/
structure Server where
  running : List Project
deriving DecidableEq

/-- `POST /projects/:id/deploy`; `found` is the result of the project lookup. -/
def deployRoute (found : Option Project) (s : Server) : Server × Response :=
  match found with
  | none => (s, ⟨404, "error", "Project not found"⟩)
  | some project =>
    ({ s with running := s.running ++ [project] }, ⟨202, "message", "Deployment started"⟩)

/-- The branch test of the webhook route; `payloadRef` is the `ref` member of the body,
`none` when the body does not bind. -/
def webhookMatches (webhookBranch : String) (payloadRef : Option String) : Bool :=
  match payloadRef with
  | none => false
  | some ref =>
    let branch := trimLeading ref "refs/heads/"
    branch == webhookBranch || webhookBranch == ""

/-- `POST /webhooks/:id/:provider`; `webhookBranch` is `project.WebhookBranch`. -/
def webhookRoute (found : Option Project) (webhookBranch provider : String)
    (payloadRef : Option String) (s : Server) : Server × Response :=
  match found with
  | none => (s, ⟨404, "error", "Project not found"⟩)
  | some project =>
    let trigger :=
      if provider = "github" then webhookMatches webhookBranch payloadRef
      else if provider = "gitlab" then webhookMatches webhookBranch payloadRef
      else false
    if trigger then
      ({ s with running := s.running ++ [project] }, ⟨202, "message", "Deployment triggered"⟩)
    else
      (s, ⟨200, "message", "No action taken"⟩)

/-! ## Vocabulary of the claims -/

/-- The primary key of the table: keys are unique and never zero. -/
def WellKeyed (rows : List Deployment) : Prop :=
  (rows.map (fun d => d.ID)).Nodup ∧ ∀ d ∈ rows, d.ID ≠ 0

instance (rows : List Deployment) : Decidable (WellKeyed rows) := by
  unfold WellKeyed; infer_instance

/-- The key the store assigns to a new row is non-zero and not in use. -/
def FreshKey (id : Nat) (rows : List Deployment) : Prop :=
  id ≠ 0 ∧ ∀ d ∈ rows, d.ID ≠ id

instance (id : Nat) (rows : List Deployment) : Decidable (FreshKey id rows) := by
  unfold FreshKey; infer_instance

/-- The most recent deployment of a project that holds a container identity, as the pause
and resume handlers select it. -/
def latestLive (projectID : Nat) (rows : List Deployment) : Option Deployment :=
  (orderByIDDesc (findLive projectID rows)).head?

/-- A live deployment (glossary): container identity non-empty, status `ready` or
`paused`. -/
def Deployment.isLive (d : Deployment) : Bool :=
  d.ContainerID != "" && (d.Status == StatusReady || d.Status == StatusPaused)

/-- The row of a retired deployment. -/
def Deployment.retired (d : Deployment) : Deployment :=
  { d with ContainerID := "", Status := statusOutdated }

/-- The table after every deployment of the project that holds a container identity has
been retired. -/
def retireProject (projectID : Nat) (rows : List Deployment) : List Deployment :=
  rows.map (fun d => if d.ProjectID = projectID ∧ d.ContainerID ≠ "" then d.retired else d)

/-- The phases of a run that can fail. -/
inductive Phase where
  | sourceSync
  | buildContext
  | imageBuild
  | launch
deriving DecidableEq

/-- The git command of the source sync phase that was run fails. -/
def syncFails (env : DeployEnv) : Bool :=
  if env.gitDirMissing then env.clone.failed else env.fetch.failed || env.reset.failed

/-- The recipe is written and the write fails. -/
def writeFails (env : DeployEnv) (project : Project) : Bool :=
  (env.dockerfileMissing || (project.BuildCommand != "" || project.InstallCommand != ""))
    && env.writeErr.isSome

/-- What `BuildImage` returns during this run, whatever the callback. -/
def buildOutcome (env : DeployEnv) : String × Option String :=
  (BuildImage env.build (none : Option (String → Unit → Unit)) ()).1

/-- The first phase whose external call fails, in pipeline order; `none` when the run
succeeds. -/
def failingPhase (env : DeployEnv) (project : Project) : Option Phase :=
  if syncFails env then some .sourceSync
  else if writeFails env project then some .buildContext
  else if (buildOutcome env).2.isSome then some .imageBuild
  else if (RunContainer env.run).2.isSome then some .launch
  else none

/-- The diagnostic text of a failure, with the literals of `handleDeploy`. -/
def diagnosticText (env : DeployEnv) : Phase → String
  | .sourceSync =>
    if env.gitDirMissing then "Git clone failed: " ++ env.clone.out
    else if env.fetch.failed then "Git fetch failed: " ++ env.fetch.out
    else "Git reset failed: " ++ env.reset.out
  | .buildContext => "Failed to generate Dockerfile: " ++ errorText env.writeErr
  | .imageBuild =>
    "Build failed: " ++ errorText (buildOutcome env).2 ++ "\nLogs:\n" ++ (buildOutcome env).1
  | .launch => "Failed to run container: " ++ errorText (RunContainer env.run).2

/-- The messages `BuildImage` processes: those up to and including the first one that
carries a non-empty error. -/
def upToFirstError : List BuildMsg → List BuildMsg
  | [] => []
  | m :: ms => if m.error ≠ "" then [m] else m :: upToFirstError ms

/-- The non-empty stream fields of the processed messages, in order. -/
def emittedLines (msgs : List BuildMsg) : List String :=
  ((upToFirstError msgs).filter (fun m => m.stream ≠ "")).map (fun m => m.stream)

/-- Concatenation of lines. -/
def concatLines : List String → String
  | [] => ""
  | l :: ls => l ++ concatLines ls

/-- The worlds reachable from the empty store by sequential deploy runs, pause requests
and resume requests, for any projects and any outcomes of the external calls. -/
inductive Reachable : World → Prop where
  | init : Reachable ⟨[], []⟩
  | deploy (env : DeployEnv) (project : Project) (w : World) :
      Reachable w → FreshKey env.newID w.db → Reachable (handleDeploy env project w)
  | pause (stopErr : String → Option String) (id : Nat) (w : World) :
      Reachable w → Reachable (pauseHandler stopErr id w).1
  | resume (startErr : String → Option String) (id : Nat) (w : World) :
      Reachable w → Reachable (resumeHandler startErr id w).1

/-- A call of `orch.RunContainer`. -/
def Effect.isRun : Effect → Bool
  | .runContainer _ _ _ _ _ _ _ _ => true
  | _ => false

/-- The invariant carried along every reachable store: keys are well formed and each
project has at most one deployment that holds a container identity. -/
def StoreInv (rows : List Deployment) : Prop :=
  WellKeyed rows ∧ ∀ projectID, (findLive projectID rows).length ≤ 1

/-! ## Sample inputs -/

def sampleProject : Project :=
  { ID := 7, RepoURL := "https://example.org/app.git", Branch := "main", RootDirectory := "",
    BuildCommand := "", InstallCommand := "", StartCommand := "", CustomPort := 0,
    InternalPort := 0, EnvVars := [], Volumes := [] }

def sampleBuild : BuildDaemon :=
  { tarErr := none, requestErr := none,
    messages := [⟨"Step 1/2\n", ""⟩, ⟨"", ""⟩, ⟨"Step 2/2\n", ""⟩], decodeErr := none }

/-- A run in which every external call succeeds. -/
def sampleEnv : DeployEnv :=
  { newID := 2, now := 100, gitDirMissing := true, clone := ⟨"", false⟩, fetch := ⟨"", false⟩,
    reset := ⟨"", false⟩, dockerfileMissing := true, bunLockExists := false, writeErr := none,
    build := sampleBuild, stopErr := fun _ => none, removeErr := fun _ => none,
    run := ⟨none, "c2", none⟩ }

/-- A run whose container is created but fails to start. -/
def sampleEnvLaunchFails : DeployEnv :=
  { sampleEnv with run := ⟨none, "c2", some "port is already allocated"⟩ }

/-- A run whose clone fails. -/
def sampleEnvCloneFails : DeployEnv :=
  { sampleEnv with clone := ⟨"fatal: repository not found\n", true⟩ }

/-- The first run for the project, on the empty store. -/
def sampleEnvFirst : DeployEnv :=
  { sampleEnv with newID := 1, run := ⟨none, "c1", none⟩ }

def sampleDeployment : Deployment :=
  { ID := 1, ProjectID := 7, CreatedAt := 50, Status := StatusReady, CommitHash := "",
    Logs := "Step 1/1\n\nDeployment successful", ContainerID := "c1", Port := 3007,
    IsPaused := false }

/-- A store holding one ready deployment of project 7 and one of project 8. -/
def sampleWorld : World :=
  { db := [sampleDeployment, { sampleDeployment with ID := 3, ProjectID := 8, ContainerID := "c3" }],
    trace := [] }

/-! ## The effects of a run, phase by phase -/

/-- The lines `BuildImage` passes to its callback, recorded in order. -/
def receivedLines (d : BuildDaemon) : List String :=
  (BuildImage d (some (fun l (acc : List String) => acc ++ [l])) []).2

/-- The condition of line 484 under which the recipe is synthesized and written. -/
def recipeWritten (env : DeployEnv) (project : Project) : Bool :=
  env.dockerfileMissing || (project.BuildCommand != "" || project.InstallCommand != "")

def syncEffects (env : DeployEnv) (project : Project) : List Effect :=
  if env.gitDirMissing then
    [.broadcastLogs project.ID "Cloning repository...\n", .gitClone project.Branch project.RepoURL]
  else
    [.broadcastLogs project.ID "Updating repository...\n", .gitFetch project.Branch] ++
      (if env.fetch.failed then [] else [.gitReset project.Branch])

def recipeEffects (env : DeployEnv) (project : Project) : List Effect :=
  if recipeWritten env project then
    [.broadcastLogs project.ID "Generating build pipeline...\n",
     .writeDockerfile (synthesizedDockerfile env.bunLockExists project) env.writeErr]
  else []

/-- The failure exit for the phase `ph`. -/
def failEffects (env : DeployEnv) (project : Project) (ph : Phase) : List Effect :=
  [.dbSave { newDeployment env project with
      Status := StatusFailed, Logs := diagnosticText env ph },
   .broadcastStatus project.ID StatusFailed 0]

def buildEffects (env : DeployEnv) (project : Project) : List Effect :=
  [.buildImage ("orchestro-p" ++ toString project.ID) "Dockerfile"
      (project.EnvVars.map (fun ev => (ev.Key, ev.Value)))] ++
    (receivedLines env.build).map (fun l => .broadcastLogs project.ID l)

/-- Stop, forced removal and clearing of the row, for each deployment found. -/
def retireEffects (env : DeployEnv) : List Deployment → List Effect
  | [] => []
  | d :: ds =>
    [.stopContainer d.ContainerID (env.stopErr d.ContainerID),
     .removeContainer d.ContainerID (env.removeErr d.ContainerID),
     .dbRetire d.ID] ++ retireEffects env ds

/-- The call `orch.RunContainer(...)` of line 598 with the result it returns. -/
def runCall (env : DeployEnv) (project : Project) : Effect :=
  .runContainer ("orchestro-p" ++ toString project.ID)
    ("orchestro-c" ++ toString project.ID ++ "-" ++ toString env.newID)
    (deployPort project) project.InternalPort
    (project.EnvVars.map (fun ev => ev.Key ++ "=" ++ ev.Value))
    (project.Volumes.map (fun v => v.HostPath ++ ":" ++ v.ContainerPath))
    (RunContainer env.run).1 (RunContainer env.run).2

/-- The record saved by a successful run. -/
def readyDeployment (env : DeployEnv) (project : Project) : Deployment :=
  { newDeployment env project with
      Status := StatusReady,
      Logs := (buildOutcome env).1 ++ "\nDeployment successful",
      ContainerID := (RunContainer env.run).1,
      Port := deployPort project }

def launchEffects (env : DeployEnv) (project : Project) : List Effect :=
  [.broadcastLogs project.ID "Starting container...\n", runCall env project] ++
    match (RunContainer env.run).2 with
    | some _ =>
      (if (RunContainer env.run).1 ≠ "" then
        [.removeContainer (RunContainer env.run).1 (env.removeErr (RunContainer env.run).1)]
       else []) ++ failEffects env project .launch
    | none =>
      [.dbSave (readyDeployment env project),
       .broadcastStatus project.ID StatusReady (deployPort project)]

/-- Everything one run of `handleDeploy` appends to the trace, for the table `rows` it
starts from. -/
def runEffects (env : DeployEnv) (project : Project) (rows : List Deployment) : List Effect :=
  [.dbCreate (newDeployment env project), .broadcastStatus project.ID StatusBuilding 0] ++
    syncEffects env project ++
    match failingPhase env project with
    | some .sourceSync => failEffects env project .sourceSync
    | some .buildContext => recipeEffects env project ++ failEffects env project .buildContext
    | some .imageBuild =>
      recipeEffects env project ++ buildEffects env project ++ failEffects env project .imageBuild
    | _ =>
      recipeEffects env project ++ buildEffects env project ++
        [.dbSave { newDeployment env project with Logs := (buildOutcome env).1 }] ++
        retireEffects env (findLive project.ID rows) ++ launchEffects env project

/-- A write of the synthesized recipe (`os.WriteFile(dockerfilePath, ...)`, line 537). -/
def Effect.isRecipeWrite : Effect → Bool
  | .writeDockerfile _ _ => true
  | _ => false

/-- A status event. -/
def Effect.isStatus : Effect → Bool
  | .broadcastStatus _ _ _ => true
  | _ => false

/-- The status event that closes a run: `ready` with the port when no phase fails, `failed`
with port 0 otherwise. -/
def terminalEvent (env : DeployEnv) (project : Project) : Effect :=
  match failingPhase env project with
  | none => .broadcastStatus project.ID StatusReady (deployPort project)
  | some _ => .broadcastStatus project.ID StatusFailed 0

/-- A project with a fixed port outside the TCP range. -/
def samplePortProject : Project := { sampleProject with CustomPort := 70000 }

/-- A project with custom commands, environment entries and an internal port. -/
def sampleCustomProject : Project :=
  { sampleProject with
      InstallCommand := "npm ci", BuildCommand := "npm run build", StartCommand := "node server.js",
      InternalPort := 8080, EnvVars := [⟨1, 7, "API_KEY", "k"⟩, ⟨2, 7, "MODE", "prod"⟩] }

/-- A text given by its lines, each line followed by a line feed. -/
def terminatedLines : List String → String
  | [] => ""
  | l :: ls => l ++ "\n" ++ terminatedLines ls

/-- One `ARG K` line followed by one `ENV K=$K` line for each environment entry, in
order. -/
def envDeclarations : List EnvVar → List String
  | [] => []
  | ev :: rest =>
    ("ARG " ++ ev.Key) :: ("ENV " ++ ev.Key ++ "=$" ++ ev.Key) :: envDeclarations rest

/-- The two-stage recipe, line by line: the builder stage with the environment declarations
(an empty line when there are none), the copy of the manifest and lock file, the install
line, the copy of the sources and the build line (empty when no build command is
configured), then the production stage with the `EXPOSE` and `CMD` lines. -/
def recipeLines (envLines : List String) (lockfile installCmd buildLine : String) (port : Int)
    (startCmd : String) : List String :=
  ["", "# Build Stage", "FROM oven/bun:latest AS builder", "WORKDIR /app"] ++
  (if envLines = [] then [""] else envLines) ++
  ["COPY package.json " ++ lockfile ++ " ./", "RUN " ++ installCmd, "COPY . .", buildLine, "",
   "# Production Stage", "FROM oven/bun:latest", "WORKDIR /app", "COPY --from=builder /app ./",
   "EXPOSE " ++ toString port, "CMD [\"sh\", \"-c\", \"" ++ startCmd ++ "\"]"]

/-- The recipe as the specification words it, written without the template of the code:
the lines of `recipeLines` with one `ARG K` line followed by `ENV K=$K` for each environment
entry in order, the install command or `bun install`, a `RUN <build command>` line only
when a build command is configured, the internal port or 80 when it is 0, and the start
command or `bun run start`. The lock file pattern follows the presence of `bun.lock`. -/
def recipeAsSpecified (bunLockExists : Bool) (project : Project) : String :=
  terminatedLines
    (recipeLines (envDeclarations project.EnvVars)
      (if bunLockExists = true then "bun.lock*" else "bun.lockb*")
      (if project.InstallCommand = "" then "bun install" else project.InstallCommand)
      (if project.BuildCommand = "" then "" else "RUN " ++ project.BuildCommand)
      (if project.InternalPort = 0 then 80 else project.InternalPort)
      (if project.StartCommand = "" then "bun run start" else project.StartCommand))

/-- A run in which every stop and removal of an old container fails. -/
def sampleEnvRetireFails : DeployEnv :=
  { sampleEnv with
      stopErr := fun _ => some "cannot stop container",
      removeErr := fun _ => some "removal of container is already in progress" }

/-- The writes to the deployments table among the effects of a run: `db.Create`, `db.Save`
and the `Updates` call that clears a retired row. -/
def Effect.isStoreWrite : Effect → Bool
  | .dbCreate _ => true
  | .dbSave _ => true
  | .dbRetire _ => true
  | _ => false

/-! ### Lemmas on the demultiplexing loop -/

theorem or_shift_eq_add (a b : Nat) (k : Nat) (hb : b < 2 ^ k) :
    (a <<< k) ||| b = 2 ^ k * a + b := by
  rw [Nat.shiftLeft_eq, Nat.mul_comm]
  exact (Nat.mul_add_lt_is_or hb a).symm

theorem frameSize_header (sel r1 r2 r3 : Byte) (len : Nat) (hlen : len < 2 ^ 32)
    (rest : List Byte) : frameSize (frameHeader sel r1 r2 r3 len ++ rest) = len := by
  simp only [frameSize, frameHeader, lengthByte, List.cons_append, List.getD_cons_succ,
    List.getD_cons_zero]
  have h0 : len / 2 ^ (8 * 0) % 256 < 2 ^ 8 := Nat.mod_lt _ (by decide)
  have h1 : len / 2 ^ (8 * 1) % 256 < 2 ^ 8 := Nat.mod_lt _ (by decide)
  have h2 : len / 2 ^ (8 * 2) % 256 < 2 ^ 8 := Nat.mod_lt _ (by decide)
  have h3 : len / 2 ^ (8 * 3) % 256 < 2 ^ 8 := Nat.mod_lt _ (by decide)
  rw [Nat.or_assoc, Nat.or_assoc]
  rw [or_shift_eq_add _ _ 8 h0]
  rw [or_shift_eq_add _ _ 16 (by omega)]
  rw [or_shift_eq_add _ _ 24 (by omega)]
  omega

theorem encode_length (f : Frame) : f.encode.length = 8 + f.payload.length := by
  simp [Frame.encode, frameHeader]; omega

theorem encode_drop_eight (f : Frame) (tail : List Byte) :
    (f.encode ++ tail).drop 8 = f.payload ++ tail := by
  simp [Frame.encode, frameHeader]

theorem frameSize_encode (f : Frame) (hf : f.WellFormed) (tail : List Byte) :
    frameSize (f.encode ++ tail) = f.payload.length := by
  unfold Frame.encode
  rw [List.append_assoc]
  exact frameSize_header _ _ _ _ _ hf _

theorem encodeFrames_eq_nil (fs : List Frame) (h : encodeFrames fs = []) : fs = [] := by
  cases fs with
  | nil => rfl
  | cons f fs =>
    have := congrArg List.length h
    simp [encodeFrames, encode_length] at this

/-- The loop terminates: with more fuel than bytes it returns an output. -/
theorem demuxLoop_isSome (fuel : Nat) :
    ∀ (data output : List Byte), data.length < fuel → (demuxLoop fuel data output).isSome = true := by
  induction fuel with
  | zero => intro data output h; omega
  | succ fuel ih =>
    intro data output h
    unfold demuxLoop
    simp only []
    split_ifs with h8 hstop
    · rfl
    · exact ih _ _ (by rw [List.length_drop]; omega)
    · rfl

/-- The handler always produces a body. -/
theorem runtimeLogsOutput_isSome (read : List Byte) : (runtimeLogsOutput read).isSome = true := by
  unfold runtimeLogsOutput
  have h := demuxLoop_isSome (read.length + 1) read [] (Nat.lt_succ_self _)
  cases hd : demuxLoop (read.length + 1) read [] with
  | none => rw [hd] at h; simp at h
  | some output =>
    simp only []
    split_ifs <;> rfl

/-- The loop on complete frames followed by a tail on which it stops: enough fuel yields
the payloads followed by what the tail has past its first eight bytes. -/
theorem demuxLoop_frames (fs : List Frame) (hfs : ∀ f ∈ fs, f.WellFormed) (rest : List Byte)
    (hrest : rest.length ≤ 8 ∨ rest.length < 8 + frameSize rest) :
    ∀ (fuel : Nat) (output : List Byte), (encodeFrames fs ++ rest).length < fuel →
      demuxLoop fuel (encodeFrames fs ++ rest) output
        = some (output ++ payloadsOf fs ++ rest.drop 8) := by
  induction fs with
  | nil =>
    intro fuel output hfuel
    cases fuel with
    | zero => omega
    | succ fuel =>
      simp only [encodeFrames, List.nil_append, payloadsOf, List.append_nil, demuxLoop]
      by_cases h8 : rest.length > 8
      · have hlt : rest.length < 8 + frameSize rest := by omega
        simp [h8, hlt]
      · have hd : rest.drop 8 = [] := List.drop_eq_nil_of_le (by omega)
        simp [h8, hd]
  | cons f fs ih =>
    intro fuel output hfuel
    have hf : f.WellFormed := hfs f (List.mem_cons_self _ _)
    have hfs1 : ∀ g ∈ fs, g.WellFormed := fun g hg => hfs g (List.mem_cons_of_mem _ hg)
    cases fuel with
    | zero => omega
    | succ fuel =>
      have hlen : (encodeFrames (f :: fs) ++ rest).length
          = 8 + f.payload.length + (encodeFrames fs ++ rest).length := by
        simp [encodeFrames, encode_length]
      have hshape : encodeFrames (f :: fs) ++ rest = f.encode ++ (encodeFrames fs ++ rest) := by
        simp [encodeFrames]
      by_cases h8 : (encodeFrames (f :: fs) ++ rest).length > 8
      · have hsize : frameSize (encodeFrames (f :: fs) ++ rest) = f.payload.length := by
          rw [hshape]; exact frameSize_encode f hf _
        have hnot : ¬ (8 + f.payload.length > (encodeFrames (f :: fs) ++ rest).length) := by
          omega
        have hdrop : (encodeFrames (f :: fs) ++ rest).drop (8 + f.payload.length)
            = encodeFrames fs ++ rest := by
          rw [hshape, ← encode_length]
          exact List.drop_left _ _
        have htake : ((encodeFrames (f :: fs) ++ rest).take (8 + f.payload.length)).drop 8
            = f.payload := by
          rw [hshape, ← encode_length, List.take_left]
          simpa using encode_drop_eight f []
        rw [demuxLoop]
        simp only [h8, if_true, hsize, hnot, if_false, hdrop, htake]
        rw [ih hfs1 fuel (output ++ f.payload) (by omega)]
        simp [payloadsOf, List.append_assoc]
      · have hp : f.payload = [] := List.eq_nil_of_length_eq_zero (by omega)
        have htail : encodeFrames fs ++ rest = [] := List.eq_nil_of_length_eq_zero (by omega)
        have hr : rest = [] := (List.append_eq_nil.mp htail).2
        have hfs0 : fs = [] := encodeFrames_eq_nil fs (List.append_eq_nil.mp htail).1
        subst hr hfs0
        rw [demuxLoop]
        rw [if_neg h8]
        simp [payloadsOf, hp]

/-- The handler on complete frames followed by such a tail. -/
theorem runtimeLogsOutput_frames (fs : List Frame) (hfs : ∀ f ∈ fs, f.WellFormed)
    (rest : List Byte) (hrest : rest.length ≤ 8 ∨ rest.length < 8 + frameSize rest) :
    runtimeLogsOutput (encodeFrames fs ++ rest)
      = some (if payloadsOf fs ++ rest.drop 8 = [] then encodeFrames fs ++ rest
          else payloadsOf fs ++ rest.drop 8) := by
  unfold runtimeLogsOutput
  rw [demuxLoop_frames fs hfs rest hrest _ [] (Nat.lt_succ_self _)]
  simp only [List.nil_append]
  by_cases hout : payloadsOf fs ++ rest.drop 8 = []
  · by_cases hbuf : (encodeFrames fs ++ rest).length > 0
    · simp [hout, hbuf]
    · have : encodeFrames fs ++ rest = [] := List.eq_nil_of_length_eq_zero (by omega)
      simp [hout, this]
  · simp [hout]

theorem take_encode (t : Frame) (k : Nat) (hk : 8 ≤ k) :
    t.encode.take k
      = frameHeader t.selector t.reserved1 t.reserved2 t.reserved3 t.payload.length
          ++ t.payload.take (k - 8) := by
  unfold Frame.encode
  rw [List.take_append_eq_append_take]
  have hlen : (frameHeader t.selector t.reserved1 t.reserved2 t.reserved3
      t.payload.length).length = 8 := rfl
  rw [hlen, List.take_of_length_le (by omega)]

theorem take_encode_drop_eight (t : Frame) (k : Nat) :
    (t.encode.take k).drop 8 = t.payload.take (k - 8) := by
  by_cases hk : 8 ≤ k
  · rw [take_encode t k hk]
    simp [frameHeader]
  · have h0 : k - 8 = 0 := by omega
    rw [h0, List.take_zero]
    exact List.drop_eq_nil_of_le (by rw [List.length_take]; omega)

/-- A strict beginning of a well-formed frame stops the loop. -/
theorem truncated_stops (t : Frame) (ht : t.WellFormed) (k : Nat) (hk : k < t.encode.length) :
    (t.encode.take k).length ≤ 8 ∨
      (t.encode.take k).length < 8 + frameSize (t.encode.take k) := by
  have hlen : (t.encode.take k).length = k := by
    rw [List.length_take]; omega
  rw [hlen]
  by_cases h8 : k ≤ 8
  · exact Or.inl h8
  · right
    rw [take_encode t k (by omega), frameSize_header _ _ _ _ _ ht]
    rw [encode_length] at hk
    exact hk

/-! ## Claims C1 and C2: demultiplexing -/

/-- C1, as stated, fails: for the single complete frame with selector 1 and an empty
payload the handler does not output the (empty) concatenation of the payloads but the eight
raw header bytes, because the fallback of line 157 fires on an empty output. -/
theorem C1_counterexample_empty_payload :
    runtimeLogsOutput (encodeFrames [⟨1, 0, 0, 0, []⟩]) = some [1, 0, 0, 0, 0, 0, 0, 0] ∧
      runtimeLogsOutput (encodeFrames [⟨1, 0, 0, 0, []⟩]) ≠ some (payloadsOf [⟨1, 0, 0, 0, []⟩]) := by
  decide

/-- C1, amended: for every buffer that is the concatenation of complete frames (any number
of them, any selector and reserved bytes, any payload lengths a header can announce), the
handler outputs exactly the concatenation of the payloads whenever at least one payload is
non-empty; when every payload is empty it outputs the raw buffer. No bound on the buffer
length is needed, so this holds in particular within the 8192-byte read. -/
theorem C1_demux_complete_frames (fs : List Frame)
    (hfs : ∀ f ∈ fs, f.WellFormed) :
    (payloadsOf fs ≠ [] → runtimeLogsOutput (encodeFrames fs) = some (payloadsOf fs)) ∧
      (payloadsOf fs = [] → runtimeLogsOutput (encodeFrames fs) = some (encodeFrames fs)) := by
  have h := runtimeLogsOutput_frames fs hfs [] (Or.inl (by simp))
  simp only [List.append_nil, List.drop_nil] at h
  constructor
  · intro hne
    rw [h, if_neg hne]
  · intro he
    rw [h, if_pos he]

theorem C1_demux_complete_frames_witness :
    runtimeLogsOutput (encodeFrames [⟨1, 0, 0, 0, [104, 105]⟩, ⟨2, 0, 0, 0, []⟩, ⟨1, 0, 0, 0, [10]⟩])
      = some [104, 105, 10] :=
  (C1_demux_complete_frames [⟨1, 0, 0, 0, [104, 105]⟩, ⟨2, 0, 0, 0, []⟩, ⟨1, 0, 0, 0, [10]⟩]
    (by decide)).1 (by decide)

/-- C2, as stated, fails. First buffer: one complete frame with an empty payload, then the
bare header of a frame announcing five bytes; the output is the whole raw buffer, neither
the payloads followed by the bytes past the trailing header (nothing) nor the payloads
followed by all remaining bytes (the trailing header). Second buffer: a complete frame with
payload `[97]`, then a header announcing five bytes and two of them; the output is
`[97, 120, 121]`, so the eight remaining header bytes are not emitted. -/
theorem C2_counterexample_truncated :
    (runtimeLogsOutput (encodeFrames [⟨1, 0, 0, 0, []⟩] ++ (Frame.encode ⟨1, 0, 0, 0, [1, 2, 3, 4, 5]⟩).take 8)
        = some [1, 0, 0, 0, 0, 0, 0, 0, 1, 0, 0, 0, 0, 0, 0, 5]
      ∧ payloadsOf [⟨1, 0, 0, 0, []⟩] ++ ((Frame.encode ⟨1, 0, 0, 0, [1, 2, 3, 4, 5]⟩).take 8).drop 8 = []
      ∧ payloadsOf [⟨1, 0, 0, 0, []⟩] ++ (Frame.encode ⟨1, 0, 0, 0, [1, 2, 3, 4, 5]⟩).take 8
          = [1, 0, 0, 0, 0, 0, 0, 5])
    ∧ (runtimeLogsOutput (encodeFrames [⟨1, 0, 0, 0, [97]⟩] ++ (Frame.encode ⟨2, 0, 0, 0, [120, 121, 122, 123, 124]⟩).take 10)
        = some [97, 120, 121]
      ∧ payloadsOf [⟨1, 0, 0, 0, [97]⟩] ++ (Frame.encode ⟨2, 0, 0, 0, [120, 121, 122, 123, 124]⟩).take 10
          = [97, 2, 0, 0, 0, 0, 0, 0, 5, 120, 121]) := by
  decide

/-- C2, amended: for every buffer made of zero or more complete frames followed by the
first `k` bytes of a further frame, `k` smaller than its header plus declared payload
length, the handler outputs the payloads of the complete frames followed by the payload
bytes of the trailing frame that are present (its bytes past the eight header bytes; the
trailing header is not emitted), provided this output is non-empty; when it is empty the
handler outputs the whole raw buffer. -/
theorem C2_demux_truncated_trailing_frame (fs : List Frame) (t : Frame) (k : Nat)
    (hfs : ∀ f ∈ fs, f.WellFormed) (ht : t.WellFormed) (hk : k < t.encode.length) :
    (payloadsOf fs ++ t.payload.take (k - 8) ≠ [] →
        runtimeLogsOutput (encodeFrames fs ++ t.encode.take k)
          = some (payloadsOf fs ++ t.payload.take (k - 8))) ∧
      (payloadsOf fs ++ t.payload.take (k - 8) = [] →
        runtimeLogsOutput (encodeFrames fs ++ t.encode.take k)
          = some (encodeFrames fs ++ t.encode.take k)) := by
  have h := runtimeLogsOutput_frames fs hfs (t.encode.take k) (truncated_stops t ht k hk)
  rw [take_encode_drop_eight] at h
  constructor
  · intro hne
    rw [h, if_neg hne]
  · intro he
    rw [h, if_pos he]

theorem C2_demux_truncated_trailing_frame_witness :
    runtimeLogsOutput (encodeFrames [⟨1, 0, 0, 0, [97]⟩]
        ++ (Frame.encode ⟨2, 0, 0, 0, [120, 121, 122, 123, 124]⟩).take 10)
      = some (payloadsOf [⟨1, 0, 0, 0, [97]⟩]
        ++ (Frame.payload ⟨2, 0, 0, 0, [120, 121, 122, 123, 124]⟩).take (10 - 8)) :=
  (C2_demux_truncated_trailing_frame [⟨1, 0, 0, 0, [97]⟩] ⟨2, 0, 0, 0, [120, 121, 122, 123, 124]⟩ 10
    (by decide) (by decide) (by decide)).1 (by decide)

/-! ## Lemmas on the store -/

@[simp] theorem emit_db (w : World) (e : Effect) : (w.emit e).db = w.db := rfl

@[simp] theorem emit_trace (w : World) (e : Effect) : (w.emit e).trace = w.trace ++ [e] := rfl

@[simp] theorem create_db (w : World) (d : Deployment) : (w.create d).db = w.db ++ [d] := rfl

@[simp] theorem save_db (w : World) (d : Deployment) : (w.save d).db = saveRow d w.db := rfl

@[simp] theorem retire_db (w : World) (id : Nat) : (w.retire id).db = retireRow id w.db := rfl

theorem map_replace_of_not_mem (id : Nat) (g : Deployment → Deployment)
    (rows : List Deployment) (h : ∀ r ∈ rows, r.ID ≠ id) :
    rows.map (fun r => if r.ID = id then g r else r) = rows := by
  induction rows with
  | nil => rfl
  | cons r rows ih =>
    have hr : r.ID ≠ id := h r (List.mem_cons_self _ _)
    simp only [List.map_cons, if_neg hr]
    rw [ih (fun x hx => h x (List.mem_cons_of_mem _ hx))]

/-- Saving the record created by the run, which sits last in the table. -/
theorem saveRow_last (rows : List Deployment) (d0 d : Deployment) (k : Nat) (hid0 : d0.ID = k)
    (hid : d.ID = k) (hfresh : ∀ r ∈ rows, r.ID ≠ k) :
    saveRow d (rows ++ [d0]) = rows ++ [d] := by
  unfold saveRow
  have hany : (rows ++ [d0]).any (fun r => r.ID == d.ID) = true := by
    simp [hid, hid0]
  rw [if_pos hany, List.map_append, hid]
  have := map_replace_of_not_mem k (fun _ => d) rows hfresh
  simp only [this, List.map_cons, List.map_nil, hid0, if_true]

/-- Saving a changed copy of a row that is in a well-keyed table replaces that row. -/
theorem saveRow_mem (rows : List Deployment) (d d1 : Deployment) (hmem : d ∈ rows)
    (hid : d1.ID = d.ID) :
    saveRow d1 rows = rows.map (fun r => if r.ID = d.ID then d1 else r) := by
  unfold saveRow
  have hany : rows.any (fun r => r.ID == d1.ID) = true := by
    simp only [List.any_eq_true, beq_iff_eq]
    exact ⟨d, hmem, hid.symm⟩
  rw [if_pos hany, hid]

theorem eq_of_ID_eq (rows : List Deployment) (hnd : (rows.map (fun d => d.ID)).Nodup)
    (a b : Deployment) (ha : a ∈ rows) (hb : b ∈ rows) (h : a.ID = b.ID) : a = b :=
  List.inj_on_of_nodup_map hnd ha hb h

/-- In a well-keyed table, replacing by key is replacing the row itself. -/
theorem map_replace_self (rows : List Deployment) (hnd : (rows.map (fun d => d.ID)).Nodup)
    (d : Deployment) (hmem : d ∈ rows) :
    rows.map (fun r => if r.ID = d.ID then d else r) = rows := by
  have : ∀ r ∈ rows, (if r.ID = d.ID then d else r) = r := by
    intro r hr
    by_cases h : r.ID = d.ID
    · rw [if_pos h]; exact (eq_of_ID_eq rows hnd r d hr hmem h).symm
    · rw [if_neg h]
  calc rows.map (fun r => if r.ID = d.ID then d else r)
      = rows.map id := List.map_congr_left this
    _ = rows := List.map_id rows

theorem map_ID_map (rows : List Deployment) (g : Deployment → Deployment)
    (hg : ∀ r, (g r).ID = r.ID) :
    (rows.map g).map (fun d => d.ID) = rows.map (fun d => d.ID) := by
  rw [List.map_map]
  exact List.map_congr_left (fun r _ => hg r)

theorem wellKeyed_map (rows : List Deployment) (g : Deployment → Deployment)
    (hg : ∀ r, (g r).ID = r.ID) (h : WellKeyed rows) : WellKeyed (rows.map g) := by
  refine ⟨?_, ?_⟩
  · rw [map_ID_map rows g hg]; exact h.1
  · intro d hd
    obtain ⟨r, hr, rfl⟩ := List.mem_map.mp hd
    rw [hg r]; exact h.2 r hr

theorem wellKeyed_append (rows : List Deployment) (d : Deployment) (h : WellKeyed rows)
    (hf : FreshKey d.ID rows) : WellKeyed (rows ++ [d]) := by
  refine ⟨?_, ?_⟩
  · rw [List.map_append, List.nodup_append]
    refine ⟨h.1, by simp, ?_⟩
    intro a ha hb
    obtain ⟨r, hr, rfl⟩ := List.mem_map.mp ha
    simp only [List.map_cons, List.map_nil, List.mem_singleton] at hb
    exact hf.2 r hr hb
  · intro x hx
    rcases List.mem_append.mp hx with hx | hx
    · exact h.2 x hx
    · rw [List.mem_singleton.mp hx]; exact hf.1

/-! ### The retirement loop -/

theorem retireOld_db (env : DeployEnv) (project : Project) (w : World) :
    (retireOld env project w).db
      = (findLive project.ID w.db).foldl (fun rows oldDep => retireRow oldDep.ID rows) w.db := by
  unfold retireOld
  generalize findLive project.ID w.db = found
  induction found generalizing w with
  | nil => rfl
  | cons d ds ih =>
    simp only [List.foldl_cons]
    rw [ih]
    rfl

theorem foldl_retireRow (found rows : List Deployment) :
    found.foldl (fun rows oldDep => retireRow oldDep.ID rows) rows
      = rows.map (fun r => if r.ID ∈ found.map (fun d => d.ID) then r.retired else r) := by
  induction found generalizing rows with
  | nil => simp
  | cons d ds ih =>
    simp only [List.foldl_cons]
    rw [ih]
    unfold retireRow
    rw [List.map_map]
    apply List.map_congr_left
    intro r _
    simp only [Function.comp, List.map_cons, List.mem_cons]
    by_cases h1 : r.ID = d.ID
    · by_cases h2 : r.ID ∈ ds.map (fun d => d.ID)
      · simp [h1, h2, Deployment.retired]
      · have h2' : d.ID ∉ ds.map (fun d => d.ID) := h1 ▸ h2
        simp [h1, h2', Deployment.retired]
    · simp [h1]

theorem mem_findLive (projectID : Nat) (rows : List Deployment) (d : Deployment) :
    d ∈ findLive projectID rows ↔ d ∈ rows ∧ d.ProjectID = projectID ∧ d.ContainerID ≠ "" := by
  simp [findLive]

/-- In a well-keyed table the retirement loop retires exactly the deployments of the project
that hold a container identity. -/
theorem retire_loop_eq (projectID : Nat) (rows : List Deployment) (h : WellKeyed rows) :
    (findLive projectID rows).foldl (fun rows oldDep => retireRow oldDep.ID rows) rows
      = retireProject projectID rows := by
  rw [foldl_retireRow]
  unfold retireProject
  apply List.map_congr_left
  intro r hr
  have hiff : r.ID ∈ (findLive projectID rows).map (fun d => d.ID)
      ↔ (r.ProjectID = projectID ∧ r.ContainerID ≠ "") := by
    constructor
    · intro hm
      obtain ⟨x, hx, hxid⟩ := List.mem_map.mp hm
      have hx' := (mem_findLive projectID rows x).mp hx
      have : x = r := eq_of_ID_eq rows h.1 x r hx'.1 hr hxid
      subst this
      exact hx'.2
    · intro hp
      exact List.mem_map.mpr ⟨r, (mem_findLive projectID rows r).mpr ⟨hr, hp⟩, rfl⟩
  by_cases hp : r.ProjectID = projectID ∧ r.ContainerID ≠ ""
  · rw [if_pos (hiff.mpr hp), if_pos hp]
  · rw [if_neg (fun hm => hp (hiff.mp hm)), if_neg hp]

/-! ### The build loop -/

theorem buildLoop_outcome {σ τ : Type} (f : Option (String → σ → σ)) (g : Option (String → τ → τ))
    (de : Option String) (msgs : List BuildMsg) :
    ∀ (logs : String) (s : σ) (t : τ),
      (buildLoop f de msgs logs s).1 = (buildLoop g de msgs logs t).1 := by
  induction msgs with
  | nil => intro logs s t; cases de <;> rfl
  | cons m ms ih =>
    intro logs s t
    simp only [buildLoop]
    by_cases he : m.error ≠ ""
    · rw [if_pos he, if_pos he]
    · rw [if_neg he, if_neg he]
      exact ih _ _ _

theorem BuildImage_outcome {σ τ : Type} (d : BuildDaemon) (f : Option (String → σ → σ))
    (g : Option (String → τ → τ)) (s : σ) (t : τ) :
    (BuildImage d f s).1 = (BuildImage d g t).1 := by
  unfold BuildImage
  cases d.tarErr with
  | some e => rfl
  | none =>
    cases d.requestErr with
    | some e => rfl
    | none => exact buildLoop_outcome f g _ _ _ _ _

theorem buildLoop_state {σ : Type} (f : String → σ → σ) (de : Option String)
    (msgs : List BuildMsg) :
    ∀ (logs : String) (s : σ),
      (buildLoop (some f) de msgs logs s).2
        = (emittedLines msgs).foldl (fun acc l => f l acc) s := by
  induction msgs with
  | nil => intro logs s; cases de <;> rfl
  | cons m ms ih =>
    intro logs s
    simp only [buildLoop, emittedLines, upToFirstError]
    by_cases he : m.error ≠ "" <;> by_cases hs : m.stream ≠ ""
    · simp [he, hs]
    · simp [he, hs]
    · simp only [he, hs, if_true, if_false]
      rw [ih]
      simp [emittedLines, hs]
    · simp only [he, hs, if_true, if_false]
      rw [ih]
      simp [emittedLines, hs]

theorem buildLoop_logs {σ : Type} (f : Option (String → σ → σ)) (de : Option String)
    (msgs : List BuildMsg) :
    ∀ (logs : String) (s : σ),
      (buildLoop f de msgs logs s).1.1 = logs ++ concatLines (emittedLines msgs) := by
  induction msgs with
  | nil => intro logs s; cases de <;> simp [buildLoop, emittedLines, upToFirstError, concatLines]
  | cons m ms ih =>
    intro logs s
    simp only [buildLoop, emittedLines, upToFirstError]
    by_cases he : m.error ≠ "" <;> by_cases hs : m.stream ≠ ""
    · simp [he, hs, concatLines]
    · simp [he, hs, concatLines]
    · simp only [he, hs, if_true, if_false]
      rw [ih]
      simp [emittedLines, hs, concatLines, String.append_assoc]
    · simp only [he, hs, if_true, if_false]
      rw [ih]
      simp [emittedLines, hs]

theorem buildLoop_err {σ : Type} (f : Option (String → σ → σ)) (de : Option String)
    (msgs : List BuildMsg) :
    ∀ (logs : String) (s : σ),
      ((buildLoop f de msgs logs s).1.2.isSome = true
        ↔ (∃ m ∈ msgs, m.error ≠ "") ∨ de.isSome = true) := by
  induction msgs with
  | nil => intro logs s; cases de <;> simp [buildLoop]
  | cons m ms ih =>
    intro logs s
    simp only [buildLoop]
    by_cases he : m.error ≠ ""
    · rw [if_pos he]
      simp only [Option.isSome_some, true_iff]
      exact Or.inl ⟨m, List.mem_cons_self _ _, he⟩
    · rw [if_neg he]
      rw [ih]
      constructor
      · rintro (⟨x, hx, hxe⟩ | h)
        · exact Or.inl ⟨x, List.mem_cons_of_mem _ hx, hxe⟩
        · exact Or.inr h
      · rintro (⟨x, hx, hxe⟩ | h)
        · rcases List.mem_cons.mp hx with rfl | hx
          · exact absurd hxe he
          · exact Or.inl ⟨x, hx, hxe⟩
        · exact Or.inr h

/-! ### The phases of `handleDeploy` -/

theorem sourceSync_db (env : DeployEnv) (project : Project) (w : World) :
    (sourceSync env project w).1.db = w.db := by
  unfold sourceSync
  split_ifs <;> rfl

theorem sourceSync_diag (env : DeployEnv) (project : Project) (w : World) :
    (sourceSync env project w).2
      = if syncFails env then some (diagnosticText env .sourceSync) else none := by
  unfold sourceSync syncFails diagnosticText
  cases env.gitDirMissing <;> cases env.clone.failed <;> cases env.fetch.failed <;>
    cases env.reset.failed <;> simp

theorem resolveRecipe_db (env : DeployEnv) (project : Project) (w : World) :
    (resolveRecipe env project w).1.db = w.db := by
  unfold resolveRecipe
  simp only []
  split_ifs
  · cases env.writeErr <;> rfl
  · rfl

theorem resolveRecipe_diag (env : DeployEnv) (project : Project) (w : World) :
    (resolveRecipe env project w).2
      = if writeFails env project then some (diagnosticText env .buildContext) else none := by
  unfold resolveRecipe writeFails diagnosticText
  simp only []
  split_ifs with h1 h2 h2
  · cases hw : env.writeErr with
    | none => simp [hw] at h2
    | some e => simp [errorText]
  · cases hw : env.writeErr with
    | none => rfl
    | some e => simp [hw, h1] at h2
  · simp [h1] at h2
  · rfl

theorem foldl_emit_db (f : String → Effect) (lines : List String) (w : World) :
    (lines.foldl (fun (acc : World) l => acc.emit (f l)) w).db = w.db := by
  induction lines generalizing w with
  | nil => rfl
  | cons l ls ih => simp only [List.foldl_cons]; rw [ih]; rfl

theorem foldl_emit_trace (f : String → Effect) (lines : List String) (w : World) :
    (lines.foldl (fun (acc : World) l => acc.emit (f l)) w).trace = w.trace ++ lines.map f := by
  induction lines generalizing w with
  | nil => simp
  | cons l ls ih => simp only [List.foldl_cons]; rw [ih]; simp

/-- The world after `BuildImage` with the callback of `handleDeploy`: one log event per
emitted line has been published. -/
theorem BuildImage_world (d : BuildDaemon) (pid : Nat) (w : World) :
    (BuildImage d (some (fun line (acc : World) => acc.emit (.broadcastLogs pid line))) w).2 = w
      ∨ (BuildImage d (some (fun line (acc : World) => acc.emit (.broadcastLogs pid line))) w).2
        = (emittedLines d.messages).foldl
            (fun (acc : World) l => acc.emit (.broadcastLogs pid l)) w := by
  unfold BuildImage
  cases d.tarErr with
  | some e => exact Or.inl rfl
  | none =>
    cases d.requestErr with
    | some e => exact Or.inl rfl
    | none => exact Or.inr (buildLoop_state _ _ _ _ _)

theorem BuildImage_db (d : BuildDaemon) (pid : Nat) (w : World) :
    (BuildImage d (some (fun line (acc : World) => acc.emit (.broadcastLogs pid line))) w).2.db
      = w.db := by
  rcases BuildImage_world d pid w with h | h
  · rw [h]
  · rw [h]; exact foldl_emit_db _ _ _

theorem BuildImage_handler_outcome (env : DeployEnv) (pid : Nat) (w : World) :
    (BuildImage env.build (some (fun line (acc : World) => acc.emit (.broadcastLogs pid line))) w).1
      = buildOutcome env :=
  BuildImage_outcome _ _ _ _ _

theorem failDeployment_db (project : Project) (d : Deployment) (logs : String) (w : World) :
    (failDeployment project d logs w).db
      = saveRow { d with Status := StatusFailed, Logs := logs } w.db := rfl

theorem launch_db (env : DeployEnv) (project : Project) (d : Deployment) (img : String)
    (w : World) :
    (launch env project d img w).db
      = match (RunContainer env.run).2 with
        | some e =>
          saveRow { d with Status := StatusFailed, Logs := "Failed to run container: " ++ e } w.db
        | none =>
          saveRow { d with Status := StatusReady, Logs := d.Logs ++ "\nDeployment successful",
                           ContainerID := (RunContainer env.run).1, Port := deployPort project } w.db := by
  unfold launch
  simp only []
  cases (RunContainer env.run).2 with
  | none => rfl
  | some e =>
    simp only [failDeployment_db]
    split_ifs <;> rfl

theorem retireProject_last (projectID : Nat) (rows : List Deployment) (d : Deployment)
    (hd : d.ContainerID = "") :
    retireProject projectID (rows ++ [d]) = retireProject projectID rows ++ [d] := by
  unfold retireProject
  simp [hd]

/-- The table after a run, by the phase at which the run fails. -/
theorem handleDeploy_db (env : DeployEnv) (project : Project) (w : World)
    (hwf : WellKeyed w.db) (hf : FreshKey env.newID w.db) :
    (handleDeploy env project w).db =
      match failingPhase env project with
      | some .launch =>
        retireProject project.ID w.db ++
          [{ newDeployment env project with
              Status := StatusFailed, Logs := diagnosticText env .launch }]
      | some ph =>
        w.db ++ [{ newDeployment env project with
              Status := StatusFailed, Logs := diagnosticText env ph }]
      | none =>
        retireProject project.ID w.db ++
          [{ newDeployment env project with
              Status := StatusReady,
              Logs := (buildOutcome env).1 ++ "\nDeployment successful",
              ContainerID := (RunContainer env.run).1,
              Port := deployPort project }] := by
  have hfresh : ∀ r ∈ w.db, r.ID ≠ (newDeployment env project).ID := hf.2
  unfold handleDeploy failingPhase
  simp only []
  rw [sourceSync_diag]
  by_cases h1 : syncFails env = true
  · simp only [h1, if_true, failDeployment_db, sourceSync_db, emit_db, create_db]
    exact saveRow_last _ _ _ env.newID rfl rfl hfresh
  · simp only [h1, if_false, Bool.false_eq_true]
    rw [resolveRecipe_diag]
    by_cases h2 : writeFails env project = true
    · simp only [h2, if_true, failDeployment_db, resolveRecipe_db, sourceSync_db, emit_db,
        create_db]
      exact saveRow_last _ _ _ env.newID rfl rfl hfresh
    · simp only [h2, if_false, Bool.false_eq_true]
      rw [BuildImage_handler_outcome]
      cases h3 : (buildOutcome env).2 with
      | some e =>
        simp only [Option.isSome_some, if_true, failDeployment_db, BuildImage_db,
          resolveRecipe_db, sourceSync_db, emit_db, create_db]
        rw [saveRow_last _ _ _ env.newID ?_ ?_ hfresh]
        rotate_left
        · rfl
        · rfl
        simp [diagnosticText, h3, errorText]
      | none =>
        simp only [Option.isSome_none, if_false, Bool.false_eq_true]
        rw [launch_db, retireOld_db]
        simp only [save_db, BuildImage_db, resolveRecipe_db, sourceSync_db, emit_db, create_db]
        rw [saveRow_last _ _ _ env.newID ?_ ?_ hfresh]
        rotate_left
        · rfl
        · rfl
        have hwf1 : WellKeyed (w.db ++ [{ newDeployment env project with Logs := (buildOutcome env).1 }]) :=
          wellKeyed_append _ _ hwf hf
        rw [retire_loop_eq _ _ hwf1, retireProject_last _ _ _ rfl]
        have hfresh1 : ∀ r ∈ retireProject project.ID w.db,
            r.ID ≠ (newDeployment env project).ID := by
          intro r hr
          unfold retireProject at hr
          obtain ⟨x, hx, rfl⟩ := List.mem_map.mp hr
          have := hfresh x hx
          split_ifs <;> simpa [Deployment.retired] using this
        cases h4 : (RunContainer env.run).2 with
        | some e =>
          simp only [Option.isSome_some, if_true]
          rw [saveRow_last _ _ _ env.newID ?_ ?_ hfresh1]
          rotate_left
          · rfl
          · rfl
          simp [diagnosticText, h4, errorText]
        | none =>
          simp only [Option.isSome_none, if_false, Bool.false_eq_true]
          rw [saveRow_last _ _ _ env.newID ?_ ?_ hfresh1]
          rotate_left
          · rfl
          · rfl

/-! ### Traces -/

theorem failDeployment_trace (project : Project) (d : Deployment) (logs : String) (w : World) :
    (failDeployment project d logs w).trace
      = w.trace ++ [.dbSave { d with Status := StatusFailed, Logs := logs },
          .broadcastStatus project.ID StatusFailed 0] := by
  simp [failDeployment, updateDeploymentStatus, World.save]

theorem sourceSync_runs (env : DeployEnv) (project : Project) (w : World) :
    (sourceSync env project w).1.trace.filter Effect.isRun = w.trace.filter Effect.isRun := by
  unfold sourceSync
  split_ifs <;> simp [Effect.isRun]

theorem resolveRecipe_runs (env : DeployEnv) (project : Project) (w : World) :
    (resolveRecipe env project w).1.trace.filter Effect.isRun = w.trace.filter Effect.isRun := by
  unfold resolveRecipe
  simp only []
  split_ifs
  · cases env.writeErr <;> simp [Effect.isRun]
  · rfl

theorem BuildImage_runs (d : BuildDaemon) (pid : Nat) (w : World) :
    (BuildImage d (some (fun line (acc : World) => acc.emit (.broadcastLogs pid line))) w).2.trace.filter
        Effect.isRun = w.trace.filter Effect.isRun := by
  rcases BuildImage_world d pid w with h | h
  · rw [h]
  · rw [h, foldl_emit_trace, List.filter_append]
    have : (List.map (fun l => Effect.broadcastLogs pid l) (emittedLines d.messages)).filter
        Effect.isRun = [] := by
      rw [List.filter_eq_nil_iff]
      intro e he
      obtain ⟨l, _, rfl⟩ := List.mem_map.mp he
      simp [Effect.isRun]
    rw [this, List.append_nil]

/-- A run that fails before the launch phase never calls `RunContainer`. -/
theorem handleDeploy_runs_early (env : DeployEnv) (project : Project) (w : World) (ph : Phase)
    (hph : failingPhase env project = some ph) (hl : ph ≠ .launch) :
    (handleDeploy env project w).trace.filter Effect.isRun = w.trace.filter Effect.isRun := by
  unfold failingPhase at hph
  unfold handleDeploy
  simp only []
  rw [sourceSync_diag]
  by_cases h1 : syncFails env = true
  · simp only [h1, if_true, failDeployment_trace, List.filter_append, sourceSync_runs]
    simp [Effect.isRun, World.create]
  · simp only [h1, if_false, Bool.false_eq_true] at hph ⊢
    rw [resolveRecipe_diag]
    by_cases h2 : writeFails env project = true
    · simp only [h2, if_true, failDeployment_trace, List.filter_append, resolveRecipe_runs,
        sourceSync_runs]
      simp [Effect.isRun, World.create]
    · simp only [h2, if_false, Bool.false_eq_true] at hph ⊢
      rw [BuildImage_handler_outcome]
      cases h3 : (buildOutcome env).2 with
      | some e =>
        simp only [failDeployment_trace, List.filter_append, BuildImage_runs, emit_trace,
          resolveRecipe_runs, sourceSync_runs]
        simp [Effect.isRun, World.create]
      | none =>
        simp only [h3, Option.isSome_none, if_false, Bool.false_eq_true] at hph
        split_ifs at hph
        simp only [Option.some.injEq] at hph
        exact absurd hph.symm hl

/-- The launch phase when `RunContainer` returns an identity together with an error. -/
theorem launch_trace_removed (env : DeployEnv) (project : Project) (d : Deployment)
    (img : String) (w : World) (e : String) (herr : (RunContainer env.run).2 = some e)
    (hcid : (RunContainer env.run).1 ≠ "") :
    (launch env project d img w).trace
      = (w.trace ++ [.broadcastLogs project.ID "Starting container...\n"]) ++
        [.runContainer img ("orchestro-c" ++ toString project.ID ++ "-" ++ toString d.ID)
            (deployPort project) project.InternalPort
            (project.EnvVars.map (fun ev => ev.Key ++ "=" ++ ev.Value))
            (project.Volumes.map (fun v => v.HostPath ++ ":" ++ v.ContainerPath))
            (RunContainer env.run).1 (some e),
          .removeContainer (RunContainer env.run).1 (env.removeErr (RunContainer env.run).1),
          .dbSave { d with Status := StatusFailed, Logs := "Failed to run container: " ++ e },
          .broadcastStatus project.ID StatusFailed 0] := by
  unfold launch
  simp only [herr]
  rw [if_pos hcid, failDeployment_trace]
  simp

theorem handleDeploy_launch_eq (env : DeployEnv) (project : Project) (w : World)
    (hph : failingPhase env project = some .launch) :
    ∃ w7 : World, handleDeploy env project w
      = launch env project { newDeployment env project with Logs := (buildOutcome env).1 }
          ("orchestro-p" ++ toString project.ID) w7 := by
  unfold failingPhase at hph
  unfold handleDeploy
  simp only []
  rw [sourceSync_diag]
  by_cases h1 : syncFails env = true
  · simp [h1] at hph
  · simp only [h1, if_false, Bool.false_eq_true] at hph ⊢
    rw [resolveRecipe_diag]
    by_cases h2 : writeFails env project = true
    · simp [h2] at hph
    · simp only [h2, if_false, Bool.false_eq_true] at hph ⊢
      rw [BuildImage_handler_outcome]
      cases h3 : (buildOutcome env).2 with
      | some e => simp [h3] at hph
      | none => exact ⟨_, rfl⟩

/-! ### Texts -/

theorem append_ne_empty (a b : String) (ha : a ≠ "") : a ++ b ≠ "" := by
  intro h
  apply ha
  have h1 := congrArg String.data h
  rw [String.data_append] at h1
  have h2 : a.data = [] := (List.append_eq_nil.mp h1).1
  exact String.ext h2

theorem diagnosticText_ne_empty (env : DeployEnv) (ph : Phase) : diagnosticText env ph ≠ "" := by
  cases ph with
  | sourceSync =>
    unfold diagnosticText
    split_ifs <;> exact append_ne_empty _ _ (by decide)
  | buildContext => exact append_ne_empty _ _ (by decide)
  | imageBuild =>
    exact append_ne_empty _ _ (append_ne_empty _ _ (append_ne_empty _ _ (by decide)))
  | launch => exact append_ne_empty _ _ (by decide)

/-! ### Retirement of a project -/

theorem retired_ID (d : Deployment) : d.retired.ID = d.ID := rfl

theorem retireProject_ID (projectID : Nat) (d : Deployment) :
    (if d.ProjectID = projectID ∧ d.ContainerID ≠ "" then d.retired else d).ID = d.ID := by
  split_ifs <;> rfl

theorem retireProject_fresh (projectID k : Nat) (rows : List Deployment)
    (h : ∀ r ∈ rows, r.ID ≠ k) : ∀ r ∈ retireProject projectID rows, r.ID ≠ k := by
  intro r hr
  unfold retireProject at hr
  obtain ⟨x, hx, rfl⟩ := List.mem_map.mp hr
  rw [retireProject_ID]
  exact h x hx

theorem findLive_retireProject (projectID : Nat) (rows : List Deployment) :
    findLive projectID (retireProject projectID rows) = [] := by
  unfold findLive retireProject
  rw [List.filter_eq_nil_iff]
  intro r hr
  obtain ⟨x, _, rfl⟩ := List.mem_map.mp hr
  by_cases h : x.ProjectID = projectID ∧ x.ContainerID ≠ ""
  · simp [h, Deployment.retired]
  · rw [if_neg h]
    simpa using h

theorem filter_other_retireProject (projectID : Nat) (rows : List Deployment) :
    (retireProject projectID rows).filter (fun d => decide (d.ProjectID ≠ projectID))
      = rows.filter (fun d => decide (d.ProjectID ≠ projectID)) := by
  unfold retireProject
  induction rows with
  | nil => rfl
  | cons r rows ih =>
    simp only [List.map_cons]
    by_cases h : r.ProjectID = projectID ∧ r.ContainerID ≠ ""
    · rw [if_pos h]
      have h1 : r.retired.ProjectID = projectID := h.1
      simp only [List.filter_cons, h1, h.1, ne_eq, not_true_eq_false, decide_False,
        Bool.false_eq_true, if_false]
      simpa using ih
    · rw [if_neg h]
      simp only [List.filter_cons]
      split_ifs
      · rw [ih]
      · exact ih

/-! ## Claims C3 and C4: outcome of a pipeline run -/

/-- C3: for every project and every well-keyed prior store, when `handleDeploy` runs with no
failing phase and the runtime returns a non-empty container identity, the store afterwards
holds exactly one deployment of the project with status `ready` and a non-empty container
identity, the one created by the run; every deployment of the project that held a container
identity before the run is now the same row with an empty container identity and status
`outdated`; the deployments of other projects are unchanged. -/
theorem C3_successful_deploy (env : DeployEnv) (project : Project) (w : World)
    (hwf : WellKeyed w.db) (hf : FreshKey env.newID w.db)
    (hok : failingPhase env project = none) (hcid : (RunContainer env.run).1 ≠ "") :
    ((handleDeploy env project w).db.filter
        (fun d => decide (d.ProjectID = project.ID ∧ d.Status = StatusReady ∧ d.ContainerID ≠ "")))
      = [{ newDeployment env project with
            Status := StatusReady,
            Logs := (buildOutcome env).1 ++ "\nDeployment successful",
            ContainerID := (RunContainer env.run).1,
            Port := deployPort project }] ∧
    (∀ d ∈ w.db, d.ProjectID = project.ID → d.ContainerID ≠ "" →
        d.retired ∈ (handleDeploy env project w).db ∧
        ∀ d1 ∈ (handleDeploy env project w).db, d1.ID = d.ID →
          d1.ContainerID = "" ∧ d1.Status = statusOutdated) ∧
    (handleDeploy env project w).db.filter (fun d => decide (d.ProjectID ≠ project.ID))
      = w.db.filter (fun d => decide (d.ProjectID ≠ project.ID)) := by
  rw [handleDeploy_db env project w hwf hf, hok]
  simp only []
  refine ⟨?_, ?_, ?_⟩
  · rw [List.filter_append]
    have hnil : (retireProject project.ID w.db).filter
        (fun d => decide (d.ProjectID = project.ID ∧ d.Status = StatusReady ∧ d.ContainerID ≠ ""))
        = [] := by
      rw [List.filter_eq_nil_iff]
      intro r hr
      have h0 := findLive_retireProject project.ID w.db
      unfold findLive at h0
      rw [List.filter_eq_nil_iff] at h0
      have h1 := h0 r hr
      simp only [Bool.and_eq_true, beq_iff_eq, bne_iff_ne, ne_eq, not_and, not_not] at h1
      simp only [decide_eq_true_eq, not_and, not_not]
      intro hp _
      exact h1 hp
    rw [hnil, List.nil_append]
    simp [newDeployment, hcid]
  · intro d hd hp hc
    have hret : d.retired ∈ retireProject project.ID w.db := by
      unfold retireProject
      refine List.mem_map.mpr ⟨d, hd, ?_⟩
      rw [if_pos ⟨hp, hc⟩]
    refine ⟨List.mem_append_left _ hret, ?_⟩
    intro d1 hd1 hid
    rcases List.mem_append.mp hd1 with h | h
    · unfold retireProject at h
      obtain ⟨x, hx, rfl⟩ := List.mem_map.mp h
      rw [retireProject_ID] at hid
      have hxd : x = d := eq_of_ID_eq w.db hwf.1 x d hx hd hid
      subst hxd
      rw [if_pos ⟨hp, hc⟩]
      exact ⟨rfl, rfl⟩
    · rw [List.mem_singleton.mp h] at hid
      exact absurd hid.symm (hf.2 d hd)
  · rw [List.filter_append, filter_other_retireProject]
    simp [newDeployment]

theorem C3_successful_deploy_witness :
    ((handleDeploy sampleEnv sampleProject sampleWorld).db.filter
        (fun d => decide (d.ProjectID = sampleProject.ID ∧ d.Status = StatusReady
          ∧ d.ContainerID ≠ "")))
      = [{ newDeployment sampleEnv sampleProject with
            Status := StatusReady,
            Logs := (buildOutcome sampleEnv).1 ++ "\nDeployment successful",
            ContainerID := (RunContainer sampleEnv.run).1,
            Port := deployPort sampleProject }] :=
  (C3_successful_deploy sampleEnv sampleProject sampleWorld (by decide) (by decide) (by decide)
    (by decide)).1

/-- C4: for every run of `handleDeploy` that fails at the source sync, build context, image
build or launch phase, the deployment created by the run ends as the only row with its key,
with status `failed`, a non-empty log and an empty container identity; a run failing before
the launch never calls `RunContainer`, and when the launch returns a container identity
together with its error the call that follows it is the forced removal of that container,
before the deployment is saved as failed. -/
theorem C4_failed_deploy (env : DeployEnv) (project : Project) (w : World)
    (hwf : WellKeyed w.db) (hf : FreshKey env.newID w.db) (ph : Phase)
    (hph : failingPhase env project = some ph) :
    (∃ created ∈ (handleDeploy env project w).db,
        created.ID = env.newID ∧ created.Status = StatusFailed ∧ created.Logs ≠ ""
          ∧ created.ContainerID = ""
          ∧ ∀ d1 ∈ (handleDeploy env project w).db, d1.ID = env.newID → d1 = created) ∧
    (ph ≠ .launch →
        (handleDeploy env project w).trace.filter Effect.isRun = w.trace.filter Effect.isRun) ∧
    (ph = .launch → (RunContainer env.run).1 ≠ "" →
        ∃ pre img name port iport envl vols e saved,
          (handleDeploy env project w).trace
            = pre ++ [.runContainer img name port iport envl vols (RunContainer env.run).1 (some e),
                .removeContainer (RunContainer env.run).1 (env.removeErr (RunContainer env.run).1),
                .dbSave saved, .broadcastStatus project.ID StatusFailed 0]
            ∧ saved.ID = env.newID ∧ saved.Status = StatusFailed ∧ saved.ContainerID = "") := by
  refine ⟨?_, ?_, ?_⟩
  · have hdb := handleDeploy_db env project w hwf hf
    rw [hph] at hdb
    have key : ∃ pre, (handleDeploy env project w).db
        = pre ++ [{ newDeployment env project with
            Status := StatusFailed, Logs := diagnosticText env ph }]
        ∧ ∀ r ∈ pre, r.ID ≠ env.newID := by
      cases ph with
      | launch => exact ⟨_, hdb, retireProject_fresh _ _ _ hf.2⟩
      | sourceSync => exact ⟨_, hdb, hf.2⟩
      | buildContext => exact ⟨_, hdb, hf.2⟩
      | imageBuild => exact ⟨_, hdb, hf.2⟩
    obtain ⟨pre, hpre, hfresh⟩ := key
    rw [hpre]
    refine ⟨_, List.mem_append_right _ (List.mem_singleton_self _), rfl, rfl,
      diagnosticText_ne_empty env ph, rfl, ?_⟩
    intro d1 hd1 hid
    rcases List.mem_append.mp hd1 with h | h
    · exact absurd hid (hfresh d1 h)
    · exact List.mem_singleton.mp h
  · intro hl
    exact handleDeploy_runs_early env project w ph hph hl
  · intro hl hcid
    subst hl
    obtain ⟨w7, hw7⟩ := handleDeploy_launch_eq env project w hph
    have herr : ∃ e, (RunContainer env.run).2 = some e := by
      cases hr : (RunContainer env.run).2 with
      | some e => exact ⟨e, rfl⟩
      | none =>
        exfalso
        unfold failingPhase at hph
        rw [hr] at hph
        split_ifs at hph
        all_goals simp at *
    obtain ⟨e, he⟩ := herr
    rw [hw7, launch_trace_removed env project _ _ w7 e he hcid]
    exact ⟨_, _, _, _, _, _, _, _, _, rfl, rfl, rfl, rfl⟩

theorem C4_failed_deploy_witness :
    ∃ created ∈ (handleDeploy sampleEnvLaunchFails sampleProject sampleWorld).db,
        created.ID = sampleEnvLaunchFails.newID ∧ created.Status = StatusFailed
          ∧ created.Logs ≠ "" ∧ created.ContainerID = ""
          ∧ ∀ d1 ∈ (handleDeploy sampleEnvLaunchFails sampleProject sampleWorld).db,
              d1.ID = sampleEnvLaunchFails.newID → d1 = created :=
  (C4_failed_deploy sampleEnvLaunchFails sampleProject sampleWorld (by decide) (by decide)
    Phase.launch (by decide)).1

/-! ## Lemmas on the pause and resume handlers -/

theorem mem_insertByIDDesc (x d : Deployment) (l : List Deployment) :
    x ∈ insertByIDDesc d l ↔ x = d ∨ x ∈ l := by
  induction l with
  | nil => simp [insertByIDDesc]
  | cons y ys ih =>
    unfold insertByIDDesc
    split_ifs
    · simp
    · simp only [List.mem_cons, ih]
      tauto

theorem mem_orderByIDDesc (x : Deployment) (l : List Deployment) :
    x ∈ orderByIDDesc l ↔ x ∈ l := by
  induction l with
  | nil => simp [orderByIDDesc]
  | cons y ys ih =>
    unfold orderByIDDesc
    rw [mem_insertByIDDesc, ih]
    simp

theorem insertByIDDesc_map (g : Deployment → Deployment) (hg : ∀ r, (g r).ID = r.ID)
    (d : Deployment) (l : List Deployment) :
    insertByIDDesc (g d) (l.map g) = (insertByIDDesc d l).map g := by
  induction l with
  | nil => rfl
  | cons y ys ih =>
    simp only [List.map_cons, insertByIDDesc, hg]
    split_ifs
    · rfl
    · rw [List.map_cons, ih]

theorem orderByIDDesc_map (g : Deployment → Deployment) (hg : ∀ r, (g r).ID = r.ID)
    (l : List Deployment) : orderByIDDesc (l.map g) = (orderByIDDesc l).map g := by
  induction l with
  | nil => rfl
  | cons y ys ih =>
    simp only [List.map_cons, orderByIDDesc]
    rw [ih, insertByIDDesc_map g hg]

/-- The head of the ordered list carries the greatest key. -/
theorem insertByIDDesc_head (d : Deployment) (l : List Deployment) (top : Deployment)
    (hl : ∀ t, l.head? = some t → ∀ x ∈ l, x.ID ≤ t.ID)
    (h : (insertByIDDesc d l).head? = some top) :
    ∀ x ∈ insertByIDDesc d l, x.ID ≤ top.ID := by
  cases l with
  | nil =>
    simp only [insertByIDDesc, List.head?_cons, Option.some.injEq] at h
    subst h
    intro x hx
    simp only [insertByIDDesc, List.mem_singleton] at hx
    rw [hx]
  | cons y ys =>
    have hy := hl y rfl
    unfold insertByIDDesc at h ⊢
    split_ifs at h ⊢ with hle
    · simp only [List.head?_cons, Option.some.injEq] at h
      subst h
      intro x hx
      rcases List.mem_cons.mp hx with rfl | hx
      · exact Nat.le_refl _
      · exact Nat.le_trans (hy x hx) hle
    · simp only [List.head?_cons, Option.some.injEq] at h
      subst h
      intro x hx
      rcases List.mem_cons.mp hx with rfl | hx
      · exact Nat.le_refl _
      · rcases (mem_insertByIDDesc x d ys).mp hx with rfl | hx
        · omega
        · exact hy x (List.mem_cons_of_mem _ hx)

theorem orderByIDDesc_head (l : List Deployment) :
    ∀ top, (orderByIDDesc l).head? = some top → ∀ x ∈ orderByIDDesc l, x.ID ≤ top.ID := by
  induction l with
  | nil => intro top h; simp [orderByIDDesc] at h
  | cons y ys ih =>
    intro top h
    exact insertByIDDesc_head y (orderByIDDesc ys) top ih h

/-- The deployment selected by the handlers is a row of the project that holds a container
identity, and no such row has a greater key. -/
theorem latestLive_spec (projectID : Nat) (rows : List Deployment) (d : Deployment)
    (h : latestLive projectID rows = some d) :
    d ∈ rows ∧ d.ProjectID = projectID ∧ d.ContainerID ≠ "" ∧
      ∀ x ∈ rows, x.ProjectID = projectID → x.ContainerID ≠ "" → x.ID ≤ d.ID := by
  unfold latestLive at h
  have hmem : d ∈ orderByIDDesc (findLive projectID rows) := List.mem_of_mem_head? h
  have hd := (mem_findLive projectID rows d).mp ((mem_orderByIDDesc d _).mp hmem)
  refine ⟨hd.1, hd.2.1, hd.2.2, ?_⟩
  intro x hx hp hc
  exact orderByIDDesc_head _ d h x
    ((mem_orderByIDDesc x _).mpr ((mem_findLive projectID rows x).mpr ⟨hx, hp, hc⟩))

theorem findLive_map (projectID : Nat) (g : Deployment → Deployment) (rows : List Deployment)
    (hg : ∀ r ∈ rows, (g r).ProjectID = r.ProjectID ∧ (g r).ContainerID = r.ContainerID) :
    findLive projectID (rows.map g) = (findLive projectID rows).map g := by
  unfold findLive
  induction rows with
  | nil => rfl
  | cons r rows ih =>
    have hr := hg r (List.mem_cons_self _ _)
    have ih1 := ih (fun x hx => hg x (List.mem_cons_of_mem _ hx))
    simp only [List.map_cons, List.filter_cons, hr.1, hr.2]
    split_ifs
    · rw [List.map_cons, ih1]
    · exact ih1

/-- Replacing a row of a well-keyed table by a copy that keeps key, project and container
identity: the handlers select the copy. -/
theorem latestLive_replace (projectID : Nat) (rows : List Deployment) (d d1 : Deployment)
    (hwf : WellKeyed rows) (h : latestLive projectID rows = some d)
    (hid : d1.ID = d.ID) (hp : d1.ProjectID = d.ProjectID) (hc : d1.ContainerID = d.ContainerID) :
    latestLive projectID (rows.map (fun r => if r.ID = d.ID then d1 else r)) = some d1 := by
  have hd := latestLive_spec projectID rows d h
  unfold latestLive at h ⊢
  rw [findLive_map, orderByIDDesc_map, List.head?_map, h]
  · simp
  · intro r
    split_ifs with hr
    · rw [hid, hr]
    · rfl
  · intro r hr
    split_ifs with hrd
    · have : r = d := eq_of_ID_eq rows hwf.1 r d hr hd.1 hrd
      subst this
      exact ⟨hp, hc⟩
    · exact ⟨rfl, rfl⟩

theorem orderBy_of_latest (projectID : Nat) (rows : List Deployment) (d : Deployment)
    (h : latestLive projectID rows = some d) :
    ∃ tl, orderByIDDesc (findLive projectID rows) = d :: tl := by
  unfold latestLive at h
  cases hl : orderByIDDesc (findLive projectID rows) with
  | nil => rw [hl] at h; simp at h
  | cons x xs =>
    rw [hl] at h
    simp only [List.head?_cons, Option.some.injEq] at h
    exact ⟨xs, by rw [h]⟩

/-- The pause handler once the selected deployment is known. -/
theorem pauseHandler_of_latest (stopErr : String → Option String) (id : Nat) (w : World)
    (d : Deployment) (h : latestLive id w.db = some d) :
    pauseHandler stopErr id w =
      if (stopErr d.ContainerID).isNone
          || strContains (errorText (stopErr d.ContainerID)) "already stopped" then
        ((((w.emit (.stopContainer d.ContainerID (stopErr d.ContainerID))).save
            { d with Status := StatusPaused, IsPaused := true }).emit
            (.broadcastStatus d.ProjectID StatusPaused d.Port)),
          ⟨200, "message", "Project paused"⟩)
      else if strContains (errorText (stopErr d.ContainerID)) "No such container" then
        ((w.emit (.stopContainer d.ContainerID (stopErr d.ContainerID))).save
            { d with Status := StatusFailed, ContainerID := "" },
          ⟨400, "error", "Container no longer exists"⟩)
      else
        (w.emit (.stopContainer d.ContainerID (stopErr d.ContainerID)),
          ⟨500, "error", errorText (stopErr d.ContainerID)⟩) := by
  obtain ⟨tl, htl⟩ := orderBy_of_latest id w.db d h
  unfold pauseHandler
  rw [htl]

/-- The resume handler once the selected deployment is known. -/
theorem resumeHandler_of_latest (startErr : String → Option String) (id : Nat) (w : World)
    (d : Deployment) (h : latestLive id w.db = some d) :
    resumeHandler startErr id w =
      if (startErr d.ContainerID).isNone
          || strContains (errorText (startErr d.ContainerID)) "already started" then
        ((((w.emit (.startContainer d.ContainerID (startErr d.ContainerID))).save
            { d with Status := StatusReady, IsPaused := false }).emit
            (.broadcastStatus d.ProjectID StatusReady d.Port)),
          ⟨200, "message", "Project resumed"⟩)
      else if strContains (errorText (startErr d.ContainerID)) "No such container" then
        ((w.emit (.startContainer d.ContainerID (startErr d.ContainerID))).save
            { d with Status := StatusFailed, ContainerID := "" },
          ⟨400, "error", "Container no longer exists"⟩)
      else
        (w.emit (.startContainer d.ContainerID (startErr d.ContainerID)),
          ⟨500, "error", errorText (startErr d.ContainerID)⟩) := by
  obtain ⟨tl, htl⟩ := orderBy_of_latest id w.db d h
  unfold resumeHandler
  rw [htl]

theorem pause_success_db (stopErr : String → Option String) (id : Nat) (w : World)
    (d : Deployment) (h : latestLive id w.db = some d) (hstop : stopErr d.ContainerID = none) :
    (pauseHandler stopErr id w).1.db
      = w.db.map (fun r => if r.ID = d.ID then { d with Status := StatusPaused, IsPaused := true }
          else r) ∧
    (pauseHandler stopErr id w).2 = ⟨200, "message", "Project paused"⟩ := by
  have hd := latestLive_spec id w.db d h
  rw [pauseHandler_of_latest stopErr id w d h, hstop]
  simp only [Option.isNone_none, Bool.true_or, if_true, emit_db, save_db, and_true]
  exact saveRow_mem w.db d _ hd.1 rfl

theorem resume_success_db (startErr : String → Option String) (id : Nat) (w : World)
    (d : Deployment) (h : latestLive id w.db = some d) (hstart : startErr d.ContainerID = none) :
    (resumeHandler startErr id w).1.db
      = w.db.map (fun r => if r.ID = d.ID then { d with Status := StatusReady, IsPaused := false }
          else r) ∧
    (resumeHandler startErr id w).2 = ⟨200, "message", "Project resumed"⟩ := by
  have hd := latestLive_spec id w.db d h
  rw [resumeHandler_of_latest startErr id w d h, hstart]
  simp only [Option.isNone_none, Bool.true_or, if_true, emit_db, save_db, and_true]
  exact saveRow_mem w.db d _ hd.1 rfl

/-- The container-gone branch of both handlers. -/
theorem handlers_container_gone (call : String → Option String) (id : Nat) (w : World)
    (d : Deployment) (msg : String) (hlatest : latestLive id w.db = some d)
    (herr : call d.ContainerID = some msg)
    (hgone : strContains msg "No such container" = true) :
    (strContains msg "already stopped" = false →
        (pauseHandler call id w).1.db
            = w.db.map (fun r => if r.ID = d.ID then
                { d with Status := StatusFailed, ContainerID := "" } else r)
          ∧ (pauseHandler call id w).2 = ⟨400, "error", "Container no longer exists"⟩) ∧
      (strContains msg "already started" = false →
        (resumeHandler call id w).1.db
            = w.db.map (fun r => if r.ID = d.ID then
                { d with Status := StatusFailed, ContainerID := "" } else r)
          ∧ (resumeHandler call id w).2 = ⟨400, "error", "Container no longer exists"⟩) := by
  have hd := latestLive_spec id w.db d hlatest
  constructor
  · intro hnot
    rw [pauseHandler_of_latest call id w d hlatest, herr]
    simp only [Option.isNone_some, errorText, Option.getD_some, hnot, hgone, Bool.or_false,
      Bool.false_eq_true, if_false, if_true, save_db, emit_db, and_true]
    exact saveRow_mem w.db d _ hd.1 rfl
  · intro hnot
    rw [resumeHandler_of_latest call id w d hlatest, herr]
    simp only [Option.isNone_some, errorText, Option.getD_some, hnot, hgone, Bool.or_false,
      Bool.false_eq_true, if_false, if_true, save_db, emit_db, and_true]
    exact saveRow_mem w.db d _ hd.1 rfl

/-! ## Claims C5, C6 and C7: pause and resume -/

/-- C5: when the most recent deployment of a project that holds a container identity has
status `ready` and paused flag `false` and the stop call succeeds, the pause handler leaves
that row with status `paused`, paused flag `true` and every other field (port and container
identity among them) unchanged; it is still the row the handlers select, and when the start
call then succeeds the resume handler restores the table, hence the record, exactly to its
value before the pause. -/
theorem C5_pause_resume_roundtrip (stopErr startErr : String → Option String) (id : Nat)
    (w : World) (d : Deployment) (hwf : WellKeyed w.db) (hlatest : latestLive id w.db = some d)
    (hready : d.Status = StatusReady) (hflag : d.IsPaused = false)
    (hstop : stopErr d.ContainerID = none) (hstart : startErr d.ContainerID = none) :
    (pauseHandler stopErr id w).1.db
        = w.db.map (fun r => if r.ID = d.ID then
            { d with Status := StatusPaused, IsPaused := true } else r) ∧
      latestLive id (pauseHandler stopErr id w).1.db
        = some { d with Status := StatusPaused, IsPaused := true } ∧
      (pauseHandler stopErr id w).2 = ⟨200, "message", "Project paused"⟩ ∧
      (resumeHandler startErr id (pauseHandler stopErr id w).1).1.db = w.db ∧
      d ∈ (resumeHandler startErr id (pauseHandler stopErr id w).1).1.db ∧
      (resumeHandler startErr id (pauseHandler stopErr id w).1).2
        = ⟨200, "message", "Project resumed"⟩ := by
  have hd := latestLive_spec id w.db d hlatest
  have hp := pause_success_db stopErr id w d hlatest hstop
  have hl1 : latestLive id (pauseHandler stopErr id w).1.db
      = some { d with Status := StatusPaused, IsPaused := true } := by
    rw [hp.1]
    exact latestLive_replace id w.db d _ hwf hlatest rfl rfl rfl
  have hr := resume_success_db startErr id (pauseHandler stopErr id w).1 _ hl1 hstart
  have hback : ({ ({ d with Status := StatusPaused, IsPaused := true } : Deployment) with
      Status := StatusReady, IsPaused := false } : Deployment) = d := by
    cases d
    simp only [Deployment.mk.injEq, true_and] at hready hflag ⊢
    exact ⟨hready.symm, hflag.symm⟩
  have hdb : (resumeHandler startErr id (pauseHandler stopErr id w).1).1.db = w.db := by
    rw [hr.1, hback, hp.1, List.map_map]
    have : ((fun r : Deployment => if r.ID = d.ID then d else r) ∘
        (fun r : Deployment =>
          if r.ID = d.ID then { d with Status := StatusPaused, IsPaused := true } else r))
        = (fun r : Deployment => if r.ID = d.ID then d else r) := by
      funext r
      simp only [Function.comp]
      split_ifs <;> simp_all
    rw [this]
    exact map_replace_self w.db hwf.1 d hd.1
  refine ⟨hp.1, hl1, hp.2, hdb, ?_, hr.2⟩
  rw [hdb]
  exact hd.1

theorem C5_pause_resume_roundtrip_witness :
    (resumeHandler (fun _ => none) 7 (pauseHandler (fun _ => none) 7 sampleWorld).1).1.db
      = sampleWorld.db :=
  (C5_pause_resume_roundtrip (fun _ => none) (fun _ => none) 7 sampleWorld sampleDeployment
    (by decide) (by decide) (by decide) (by decide) rfl rfl).2.2.2.1

/-- C6, as stated, fails: a stop error whose text contains "No such container" and also
"already stopped" is taken by the first test of the pause handler, which answers 200 and
leaves the deployment `paused` with its container identity; likewise for resume with
"already started". -/
theorem C6_counterexample_overlapping_message :
    (strContains "already stopped: No such container: c1" "No such container" = true
      ∧ (pauseHandler (fun _ => some "already stopped: No such container: c1") 7 sampleWorld).2
          = ⟨200, "message", "Project paused"⟩
      ∧ latestLive 7 (pauseHandler (fun _ => some "already stopped: No such container: c1") 7
          sampleWorld).1.db
          = some { sampleDeployment with Status := StatusPaused, IsPaused := true })
    ∧ (strContains "already started: No such container: c1" "No such container" = true
      ∧ (resumeHandler (fun _ => some "already started: No such container: c1") 7 sampleWorld).2
          = ⟨200, "message", "Project resumed"⟩
      ∧ latestLive 7 (resumeHandler (fun _ => some "already started: No such container: c1") 7
          sampleWorld).1.db
          = some sampleDeployment) := by
  decide

/-- C6, amended: whenever the stop call of the pause handler (the start call of the resume
handler) fails with a message that contains "No such container" and does not contain
"already stopped" (respectively "already started"), the targeted deployment is saved with
status `failed` and an empty container identity, its other fields unchanged, and the handler
answers 400 with the error "Container no longer exists". -/
theorem C6_container_gone (call : String → Option String) (id : Nat) (w : World)
    (d : Deployment) (msg : String) (hlatest : latestLive id w.db = some d)
    (herr : call d.ContainerID = some msg)
    (hgone : strContains msg "No such container" = true) :
    (strContains msg "already stopped" = false →
        (pauseHandler call id w).1.db
            = w.db.map (fun r => if r.ID = d.ID then
                { d with Status := StatusFailed, ContainerID := "" } else r)
          ∧ (pauseHandler call id w).2 = ⟨400, "error", "Container no longer exists"⟩) ∧
      (strContains msg "already started" = false →
        (resumeHandler call id w).1.db
            = w.db.map (fun r => if r.ID = d.ID then
                { d with Status := StatusFailed, ContainerID := "" } else r)
          ∧ (resumeHandler call id w).2 = ⟨400, "error", "Container no longer exists"⟩) := by
  have hd := latestLive_spec id w.db d hlatest
  constructor
  · intro hnot
    rw [pauseHandler_of_latest call id w d hlatest, herr]
    simp only [Option.isNone_some, errorText, Option.getD_some, hnot, hgone, Bool.or_false,
      Bool.false_eq_true, if_false, if_true, save_db, emit_db, and_true]
    exact saveRow_mem w.db d _ hd.1 rfl
  · intro hnot
    rw [resumeHandler_of_latest call id w d hlatest, herr]
    simp only [Option.isNone_some, errorText, Option.getD_some, hnot, hgone, Bool.or_false,
      Bool.false_eq_true, if_false, if_true, save_db, emit_db, and_true]
    exact saveRow_mem w.db d _ hd.1 rfl

theorem C6_container_gone_witness :
    (pauseHandler (fun _ => some "Error response from daemon: No such container: c1") 7
        sampleWorld).2 = ⟨400, "error", "Container no longer exists"⟩ :=
  ((C6_container_gone (fun _ => some "Error response from daemon: No such container: c1") 7
    sampleWorld sampleDeployment "Error response from daemon: No such container: c1"
    (by decide) rfl (by decide)).1 (by decide)).2

/-- C7: whenever the stop call of the pause handler (the start call of the resume handler)
fails with a message that contains neither "already stopped" (respectively "already
started") nor "No such container", the handler answers 500 with that message unmodified,
the table is exactly as before and no event has been published. -/
theorem C7_transient_error (call : String → Option String) (id : Nat) (w : World)
    (d : Deployment) (msg : String) (hlatest : latestLive id w.db = some d)
    (herr : call d.ContainerID = some msg)
    (hgone : strContains msg "No such container" = false) :
    (strContains msg "already stopped" = false →
        (pauseHandler call id w).2 = ⟨500, "error", msg⟩
          ∧ (pauseHandler call id w).1.db = w.db
          ∧ (pauseHandler call id w).1.trace.filter Effect.isEvent
              = w.trace.filter Effect.isEvent) ∧
      (strContains msg "already started" = false →
        (resumeHandler call id w).2 = ⟨500, "error", msg⟩
          ∧ (resumeHandler call id w).1.db = w.db
          ∧ (resumeHandler call id w).1.trace.filter Effect.isEvent
              = w.trace.filter Effect.isEvent) := by
  constructor
  · intro hnot
    rw [pauseHandler_of_latest call id w d hlatest, herr]
    simp [errorText, hnot, hgone, Effect.isEvent]
  · intro hnot
    rw [resumeHandler_of_latest call id w d hlatest, herr]
    simp [errorText, hnot, hgone, Effect.isEvent]

theorem C7_transient_error_witness :
    (pauseHandler (fun _ => some "context deadline exceeded") 7 sampleWorld).2
        = ⟨500, "error", "context deadline exceeded"⟩
      ∧ (pauseHandler (fun _ => some "context deadline exceeded") 7 sampleWorld).1.db
        = sampleWorld.db
      ∧ (pauseHandler (fun _ => some "context deadline exceeded") 7 sampleWorld).1.trace.filter
          Effect.isEvent = sampleWorld.trace.filter Effect.isEvent :=
  (C7_transient_error (fun _ => some "context deadline exceeded") 7 sampleWorld sampleDeployment
    "context deadline exceeded" (by decide) rfl (by decide)).1 (by decide)

/-! ## Claim C8: the build stream -/

theorem foldl_record (lines init : List String) :
    lines.foldl (fun acc l => acc ++ [l]) init = init ++ lines := by
  induction lines generalizing init with
  | nil => simp
  | cons l ls ih => simp only [List.foldl_cons]; rw [ih]; simp

/-- C8: for every sequence of progress messages delivered to `BuildImage` (the archive and
the build request having succeeded), the callback is applied once, in order, to each
non-empty stream field of the messages up to and including the first one that carries a
non-empty error, so a callback that records its argument ends with exactly those lines; the
returned transcript is the concatenation of those lines, also when an error is returned; and
an error is returned if and only if some message carries a non-empty error or decoding
fails before the end of the stream. -/
theorem C8_build_stream {σ : Type} (d : BuildDaemon) (onLine : String → σ → σ) (s : σ)
    (htar : d.tarErr = none) (hreq : d.requestErr = none) :
    (BuildImage d (some onLine) s).2
        = (emittedLines d.messages).foldl (fun acc l => onLine l acc) s ∧
      (BuildImage d (some (fun l (acc : List String) => acc ++ [l])) []).2
        = emittedLines d.messages ∧
      (BuildImage d (some onLine) s).1.1 = concatLines (emittedLines d.messages) ∧
      ((BuildImage d (some onLine) s).1.2.isSome = true
        ↔ (∃ m ∈ d.messages, m.error ≠ "") ∨ d.decodeErr.isSome = true) := by
  unfold BuildImage
  simp only [htar, hreq]
  refine ⟨buildLoop_state _ _ _ _ _, ?_, ?_, buildLoop_err _ _ _ _ _⟩
  · rw [buildLoop_state]
    simpa using foldl_record (emittedLines d.messages) []
  · rw [buildLoop_logs]
    exact String.empty_append _

theorem C8_build_stream_witness :
    (BuildImage sampleBuild (some (fun l (acc : List String) => acc ++ [l])) []).2
      = emittedLines sampleBuild.messages :=
  (C8_build_stream sampleBuild (fun l (acc : List String) => acc ++ [l]) [] rfl rfl).2.1

/-! ## Claim C9: the log field after a failure -/

/-- C9, as stated, fails. Launch failure: the run saves the build transcript
`"Step 1/2\nStep 2/2\n"` on the deployment before the launch, and after the failed launch the
log is only the launch diagnostic, which does not contain the transcript. Container gone:
the pause handler marks the deployment failed and leaves its log as it was, without the
diagnostic text. -/
theorem C9_counterexample_log_overwritten :
    (Effect.dbSave { newDeployment sampleEnvLaunchFails sampleProject with
          Logs := "Step 1/2\nStep 2/2\n" }
        ∈ (handleDeploy sampleEnvLaunchFails sampleProject sampleWorld).trace
      ∧ (handleDeploy sampleEnvLaunchFails sampleProject sampleWorld).db.map
          (fun d => (d.ID, d.Status, d.Logs))
        = [(1, "outdated", "Step 1/1\n\nDeployment successful"),
           (3, "ready", "Step 1/1\n\nDeployment successful"),
           (2, "failed", "Failed to run container: port is already allocated")]
      ∧ strContains "Failed to run container: port is already allocated" "Step 1/2\nStep 2/2\n"
          = false)
    ∧ ((pauseHandler (fun _ => some "Error response from daemon: No such container: c1") 7
          sampleWorld).1.db.map (fun d => (d.ID, d.Status, d.ContainerID, d.Logs))
        = [(1, "failed", "", "Step 1/1\n\nDeployment successful"),
           (3, "ready", "c3", "Step 1/1\n\nDeployment successful")]
      ∧ strContains "Step 1/1\n\nDeployment successful" "No such container" = false) := by
  decide

/-! ## Claim C10: at most one live deployment per project -/

theorem findLive_append (projectID : Nat) (a b : List Deployment) :
    findLive projectID (a ++ b) = findLive projectID a ++ findLive projectID b := by
  unfold findLive
  exact List.filter_append _ _

theorem findLive_length_map_le (projectID : Nat) (g : Deployment → Deployment)
    (rows : List Deployment)
    (hg : ∀ r ∈ rows, (g r).ProjectID = r.ProjectID ∧
      ((g r).ContainerID = r.ContainerID ∨ (g r).ContainerID = "")) :
    (findLive projectID (rows.map g)).length ≤ (findLive projectID rows).length := by
  unfold findLive
  induction rows with
  | nil => simp
  | cons r rows ih =>
    have hr := hg r (List.mem_cons_self _ _)
    have ih1 := ih (fun x hx => hg x (List.mem_cons_of_mem _ hx))
    simp only [List.map_cons, List.filter_cons, hr.1]
    rcases hr.2 with hc | hc
    · rw [hc]
      split_ifs
      · simp only [List.length_cons]; omega
      · exact ih1
    · rw [hc]
      simp only [bne_self_eq_false, Bool.and_false, Bool.false_eq_true, if_false]
      split_ifs
      · simp only [List.length_cons]; omega
      · exact ih1

theorem storeInv_nil : StoreInv [] :=
  ⟨⟨by simp, by simp⟩, by intro pid; simp [findLive]⟩

/-- Appending a fresh row of project `pid` keeps the invariant when the old part holds no
container identity for `pid`, or the new row holds none. -/
theorem storeInv_append (rows : List Deployment) (d : Deployment) (h : StoreInv rows)
    (hf : FreshKey d.ID rows)
    (hone : d.ContainerID = "" ∨ findLive d.ProjectID rows = []) :
    StoreInv (rows ++ [d]) := by
  refine ⟨wellKeyed_append rows d h.1 hf, ?_⟩
  intro pid
  rw [findLive_append, List.length_append]
  have h1 := h.2 pid
  rcases hone with hc | hnone
  · have : findLive pid [d] = [] := by simp [findLive, hc]
    rw [this]; simpa using h1
  · by_cases hp : d.ProjectID = pid
    · subst hp
      rw [hnone]
      simp only [List.length_nil, Nat.zero_add]
      unfold findLive
      exact Nat.le_trans (List.length_filter_le _ _) (by simp)
    · have : findLive pid [d] = [] := by simp [findLive, hp]
      rw [this]; simpa using h1

theorem storeInv_retireProject (projectID : Nat) (rows : List Deployment) (h : StoreInv rows) :
    StoreInv (retireProject projectID rows) := by
  refine ⟨wellKeyed_map rows _ (retireProject_ID projectID) h.1, ?_⟩
  intro pid
  refine Nat.le_trans (findLive_length_map_le pid _ rows ?_) (h.2 pid)
  intro r _
  split_ifs
  · exact ⟨rfl, Or.inr rfl⟩
  · exact ⟨rfl, Or.inl rfl⟩

/-- Replacing a row by a copy that keeps key and project and keeps or clears the container
identity keeps the invariant. -/
theorem storeInv_replace (rows : List Deployment) (d d1 : Deployment) (h : StoreInv rows)
    (hd : d ∈ rows) (hid : d1.ID = d.ID) (hp : d1.ProjectID = d.ProjectID)
    (hc : d1.ContainerID = d.ContainerID ∨ d1.ContainerID = "") :
    StoreInv (rows.map (fun r => if r.ID = d.ID then d1 else r)) := by
  refine ⟨wellKeyed_map rows _ ?_ h.1, ?_⟩
  · intro r
    split_ifs with hr
    · rw [hid, hr]
    · rfl
  · intro pid
    refine Nat.le_trans (findLive_length_map_le pid _ rows ?_) (h.2 pid)
    intro r hr
    split_ifs with hrd
    · have : r = d := eq_of_ID_eq rows h.1.1 r d hr hd hrd
      subst this
      exact ⟨hp, hc⟩
    · exact ⟨rfl, Or.inl rfl⟩

theorem storeInv_handleDeploy (env : DeployEnv) (project : Project) (w : World)
    (h : StoreInv w.db) (hf : FreshKey env.newID w.db) :
    StoreInv (handleDeploy env project w).db := by
  rw [handleDeploy_db env project w h.1 hf]
  have hret := storeInv_retireProject project.ID w.db h
  have hfret : FreshKey env.newID (retireProject project.ID w.db) :=
    ⟨hf.1, retireProject_fresh _ _ _ hf.2⟩
  cases hph : failingPhase env project with
  | none =>
    exact storeInv_append _ _ hret hfret (Or.inr (findLive_retireProject project.ID w.db))
  | some ph =>
    cases ph with
    | launch => exact storeInv_append _ _ hret hfret (Or.inl rfl)
    | sourceSync => exact storeInv_append _ _ h hf (Or.inl rfl)
    | buildContext => exact storeInv_append _ _ h hf (Or.inl rfl)
    | imageBuild => exact storeInv_append _ _ h hf (Or.inl rfl)

theorem pauseHandler_none (stopErr : String → Option String) (id : Nat) (w : World)
    (h : latestLive id w.db = none) : (pauseHandler stopErr id w).1 = w := by
  unfold latestLive at h
  unfold pauseHandler
  cases hl : orderByIDDesc (findLive id w.db) with
  | nil => rfl
  | cons x xs => rw [hl] at h; simp at h

theorem resumeHandler_none (startErr : String → Option String) (id : Nat) (w : World)
    (h : latestLive id w.db = none) : (resumeHandler startErr id w).1 = w := by
  unfold latestLive at h
  unfold resumeHandler
  cases hl : orderByIDDesc (findLive id w.db) with
  | nil => rfl
  | cons x xs => rw [hl] at h; simp at h

theorem storeInv_saveRow (rows : List Deployment) (d d1 : Deployment) (h : StoreInv rows)
    (hd : d ∈ rows) (hid : d1.ID = d.ID) (hp : d1.ProjectID = d.ProjectID)
    (hc : d1.ContainerID = d.ContainerID ∨ d1.ContainerID = "") :
    StoreInv (saveRow d1 rows) := by
  rw [saveRow_mem rows d d1 hd hid]
  exact storeInv_replace rows d d1 h hd hid hp hc

theorem storeInv_pauseHandler (stopErr : String → Option String) (id : Nat) (w : World)
    (h : StoreInv w.db) : StoreInv (pauseHandler stopErr id w).1.db := by
  cases hl : latestLive id w.db with
  | none => rw [pauseHandler_none stopErr id w hl]; exact h
  | some d =>
    have hd := latestLive_spec id w.db d hl
    rw [pauseHandler_of_latest stopErr id w d hl]
    split_ifs
    · exact storeInv_saveRow w.db d _ h hd.1 rfl rfl (Or.inl rfl)
    · exact storeInv_saveRow w.db d _ h hd.1 rfl rfl (Or.inr rfl)
    · exact h

theorem storeInv_resumeHandler (startErr : String → Option String) (id : Nat) (w : World)
    (h : StoreInv w.db) : StoreInv (resumeHandler startErr id w).1.db := by
  cases hl : latestLive id w.db with
  | none => rw [resumeHandler_none startErr id w hl]; exact h
  | some d =>
    have hd := latestLive_spec id w.db d hl
    rw [resumeHandler_of_latest startErr id w d hl]
    split_ifs
    · exact storeInv_saveRow w.db d _ h hd.1 rfl rfl (Or.inl rfl)
    · exact storeInv_saveRow w.db d _ h hd.1 rfl rfl (Or.inr rfl)
    · exact h

theorem storeInv_of_reachable (w : World) (h : Reachable w) : StoreInv w.db := by
  induction h with
  | init => exact storeInv_nil
  | deploy env project w _ hf ih => exact storeInv_handleDeploy env project w ih hf
  | pause stopErr id w _ ih => exact storeInv_pauseHandler stopErr id w ih
  | resume startErr id w _ ih => exact storeInv_resumeHandler startErr id w ih

/-- C10: in every store reachable from the empty store by sequential `handleDeploy` runs,
pause requests and resume requests, for any projects and any outcomes of the external
calls, each project has at most one deployment whose container identity is non-empty and
whose status is `ready` or `paused`. -/
theorem C10_at_most_one_live (w : World) (h : Reachable w) (projectID : Nat) :
    (w.db.filter (fun d => d.ProjectID == projectID && d.isLive)).length ≤ 1 := by
  have hinv := (storeInv_of_reachable w h).2 projectID
  unfold findLive at hinv
  have hsub : w.db.filter (fun d => d.ProjectID == projectID && d.isLive)
      = (w.db.filter (fun r => r.ProjectID == projectID && r.ContainerID != "")).filter
          (fun d => d.isLive) := by
    rw [List.filter_filter]
    apply List.filter_congr
    intro d _
    unfold Deployment.isLive
    cases (d.ProjectID == projectID) <;> cases (d.ContainerID != "") <;> simp
  rw [hsub]
  exact Nat.le_trans (List.length_filter_le _ _) hinv

theorem C10_at_most_one_live_witness :
    ((handleDeploy sampleEnv sampleProject
        (pauseHandler (fun _ => none) 7
          (handleDeploy sampleEnvFirst sampleProject ⟨[], []⟩)).1).db.filter
      (fun d => d.ProjectID == 7 && d.isLive)).length ≤ 1 :=
  C10_at_most_one_live _
    (Reachable.deploy sampleEnv sampleProject _
      (Reachable.pause (fun _ => none) 7 _
        (Reachable.deploy sampleEnvFirst sampleProject _ Reachable.init (by decide)))
      (by decide))
    7

/-! ## The trace of a run -/

theorem sourceSync_trace (env : DeployEnv) (project : Project) (w : World) :
    (sourceSync env project w).1.trace = w.trace ++ syncEffects env project := by
  unfold sourceSync syncEffects
  cases env.gitDirMissing <;> cases env.clone.failed <;> cases env.fetch.failed <;>
    cases env.reset.failed <;> simp

theorem resolveRecipe_trace (env : DeployEnv) (project : Project) (w : World) :
    (resolveRecipe env project w).1.trace = w.trace ++ recipeEffects env project := by
  unfold resolveRecipe recipeEffects recipeWritten
  simp only []
  split_ifs
  · cases env.writeErr <;> simp
  · simp

theorem receivedLines_cases (d : BuildDaemon) :
    (receivedLines d = [] ∧ ∀ (pid : Nat) (w : World),
        (BuildImage d (some (fun line (acc : World) => acc.emit (.broadcastLogs pid line))) w).2 = w)
      ∨ (receivedLines d = emittedLines d.messages ∧ ∀ (pid : Nat) (w : World),
        (BuildImage d (some (fun line (acc : World) => acc.emit (.broadcastLogs pid line))) w).2
          = (emittedLines d.messages).foldl
              (fun (acc : World) l => acc.emit (.broadcastLogs pid l)) w) := by
  unfold receivedLines BuildImage
  cases d.tarErr with
  | some e => exact Or.inl ⟨rfl, fun _ _ => rfl⟩
  | none =>
    cases d.requestErr with
    | some e => exact Or.inl ⟨rfl, fun _ _ => rfl⟩
    | none =>
      refine Or.inr ⟨?_, fun _ _ => buildLoop_state _ _ _ _ _⟩
      simp only []
      rw [buildLoop_state]
      simpa using foldl_record (emittedLines d.messages) []

theorem BuildImage_trace (d : BuildDaemon) (pid : Nat) (w : World) :
    (BuildImage d (some (fun line (acc : World) => acc.emit (.broadcastLogs pid line))) w).2.trace
      = w.trace ++ (receivedLines d).map (fun l => Effect.broadcastLogs pid l) := by
  rcases receivedLines_cases d with ⟨h1, h2⟩ | ⟨h1, h2⟩
  · rw [h1, h2]; simp
  · rw [h1, h2, foldl_emit_trace]

theorem retireOld_trace (env : DeployEnv) (project : Project) (w : World) :
    (retireOld env project w).trace
      = w.trace ++ retireEffects env (findLive project.ID w.db) := by
  unfold retireOld
  generalize findLive project.ID w.db = found
  induction found generalizing w with
  | nil => simp [retireEffects]
  | cons d ds ih =>
    simp only [List.foldl_cons, retireEffects]
    rw [ih]
    simp [World.retire]

theorem launch_trace (env : DeployEnv) (project : Project) (w : World) :
    (launch env project { newDeployment env project with Logs := (buildOutcome env).1 }
        ("orchestro-p" ++ toString project.ID) w).trace
      = w.trace ++ launchEffects env project := by
  unfold launch launchEffects runCall
  simp only []
  cases hr : (RunContainer env.run).2 with
  | none =>
    simp [updateDeploymentStatus, World.save, readyDeployment, newDeployment]
  | some e =>
    simp only [failDeployment_trace]
    split_ifs <;> simp [failEffects, diagnosticText, errorText, newDeployment, hr]

@[simp] theorem create_trace (w : World) (d : Deployment) :
    (w.create d).trace = w.trace ++ [.dbCreate d] := rfl

@[simp] theorem save_trace (w : World) (d : Deployment) :
    (w.save d).trace = w.trace ++ [.dbSave d] := rfl

theorem findLive_after_build (env : DeployEnv) (project : Project) (rows : List Deployment)
    (hf : FreshKey env.newID rows) :
    findLive project.ID
        (saveRow { newDeployment env project with Logs := (buildOutcome env).1 }
          (rows ++ [newDeployment env project]))
      = findLive project.ID rows := by
  rw [saveRow_last _ _ _ env.newID rfl rfl hf.2, findLive_append]
  simp [findLive, newDeployment]

/-- The trace after a run is the trace before it followed by `runEffects`. -/
theorem handleDeploy_trace (env : DeployEnv) (project : Project) (w : World)
    (hf : FreshKey env.newID w.db) :
    (handleDeploy env project w).trace = w.trace ++ runEffects env project w.db := by
  unfold handleDeploy runEffects failingPhase
  simp only []
  rw [sourceSync_diag]
  by_cases h1 : syncFails env = true
  · simp only [h1, if_true, failDeployment_trace, sourceSync_trace, emit_trace, create_trace,
      failEffects]
    simp
  · simp only [h1, if_false, Bool.false_eq_true]
    rw [resolveRecipe_diag]
    by_cases h2 : writeFails env project = true
    · simp only [h2, if_true, failDeployment_trace, resolveRecipe_trace, sourceSync_trace,
        emit_trace, create_trace, failEffects]
      simp
    · simp only [h2, if_false, Bool.false_eq_true]
      rw [BuildImage_handler_outcome]
      cases h3 : (buildOutcome env).2 with
      | some e =>
        simp only [Option.isSome_some, if_true, failDeployment_trace, BuildImage_trace,
          resolveRecipe_trace, sourceSync_trace, emit_trace, create_trace, failEffects,
          buildEffects]
        simp [diagnosticText, h3, errorText]
      | none =>
        simp only [Option.isSome_none, if_false, Bool.false_eq_true]
        rw [launch_trace, retireOld_trace]
        simp only [save_db, save_trace, BuildImage_db, BuildImage_trace, resolveRecipe_db,
          resolveRecipe_trace, sourceSync_db, sourceSync_trace, emit_db, emit_trace, create_db,
          create_trace, buildEffects]
        rw [findLive_after_build env project w.db hf]
        split_ifs <;> simp

/-! ### Filters on the effects of a run -/

theorem filter_retireEffects_nil (P : Effect → Bool) (env : DeployEnv)
    (hstop : ∀ c e, P (.stopContainer c e) = false)
    (hrem : ∀ c e, P (.removeContainer c e) = false)
    (hret : ∀ i, P (.dbRetire i) = false) (found : List Deployment) :
    (retireEffects env found).filter P = [] := by
  induction found with
  | nil => rfl
  | cons d ds ih =>
    simp only [retireEffects, List.filter_append, ih, List.append_nil]
    simp [List.filter_cons, hstop, hrem, hret]

theorem filter_logs_nil (P : Effect → Bool) (pid : Nat)
    (h : ∀ l, P (.broadcastLogs pid l) = false) (lines : List String) :
    (lines.map (fun l => Effect.broadcastLogs pid l)).filter P = [] := by
  rw [List.filter_eq_nil_iff]
  intro e he
  obtain ⟨l, _, rfl⟩ := List.mem_map.mp he
  simp [h]

theorem filter_logs_all (P : Effect → Bool) (pid : Nat)
    (h : ∀ l, P (.broadcastLogs pid l) = true) (lines : List String) :
    (lines.map (fun l => Effect.broadcastLogs pid l)).filter P
      = lines.map (fun l => Effect.broadcastLogs pid l) := by
  rw [List.filter_eq_self]
  intro e he
  obtain ⟨l, _, rfl⟩ := List.mem_map.mp he
  exact h l

theorem syncEffects_runs (env : DeployEnv) (project : Project) :
    (syncEffects env project).filter Effect.isRun = [] := by
  unfold syncEffects
  split_ifs <;> simp [Effect.isRun]

theorem recipeEffects_runs (env : DeployEnv) (project : Project) :
    (recipeEffects env project).filter Effect.isRun = [] := by
  unfold recipeEffects
  split_ifs <;> simp [Effect.isRun]

theorem buildEffects_runs (env : DeployEnv) (project : Project) :
    (buildEffects env project).filter Effect.isRun = [] := by
  unfold buildEffects
  rw [List.filter_append, filter_logs_nil _ _ (fun _ => rfl)]
  simp [Effect.isRun]

theorem retireEffects_runs (env : DeployEnv) (found : List Deployment) :
    (retireEffects env found).filter Effect.isRun = [] :=
  filter_retireEffects_nil _ env (fun _ _ => rfl) (fun _ _ => rfl) (fun _ => rfl) found

theorem launchEffects_runs (env : DeployEnv) (project : Project) :
    (launchEffects env project).filter Effect.isRun = [runCall env project] := by
  unfold launchEffects
  cases (RunContainer env.run).2 with
  | none => simp [Effect.isRun, runCall]
  | some e =>
    simp only []
    split_ifs <;> simp [Effect.isRun, runCall, failEffects]

/-- The `RunContainer` calls of a run that reaches the launch phase: exactly one. -/
theorem runEffects_runs (env : DeployEnv) (project : Project) (rows : List Deployment)
    (h : failingPhase env project = none ∨ failingPhase env project = some .launch) :
    (runEffects env project rows).filter Effect.isRun = [runCall env project] := by
  unfold runEffects
  rcases h with h | h <;>
    simp [h, List.filter_append, syncEffects_runs, recipeEffects_runs, buildEffects_runs,
      retireEffects_runs, launchEffects_runs, Effect.isRun]

theorem deployPort_fixed (project : Project) (h : project.CustomPort ≠ 0) :
    deployPort project = project.CustomPort := by
  unfold deployPort
  rw [if_neg h]

theorem deployPort_default (project : Project) (h : project.CustomPort = 0)
    (hid : project.ID < 2 ^ 63 - 3000) : deployPort project = 3000 + (project.ID : Int) := by
  unfold deployPort wrapInt64
  rw [if_pos h]
  have h1 : ((project.ID : Int) + 2 ^ 63) % 2 ^ 64 - 2 ^ 63 = (project.ID : Int) := by omega
  rw [h1]
  omega

/-! ## Claim C11: the external port -/

/-- C11, as stated, fails: for a project whose fixed port is 70000 and a daemon that accepts
the launch, `RunContainer` is called with port 70000 and the ready deployment records port
70000, which is outside 1..65535; for project 70000 without a fixed port the port is
73000. -/
theorem C11_counterexample_port_out_of_range :
    Effect.runContainer "orchestro-p7" "orchestro-c7-2" 70000 0 [] [] "c2" none
        ∈ (handleDeploy sampleEnv samplePortProject sampleWorld).trace
      ∧ (handleDeploy sampleEnv samplePortProject sampleWorld).db.map
          (fun d => (d.ID, d.Status, d.ContainerID, d.Port))
        = [(1, "outdated", "", 3007), (3, "ready", "c3", 3007), (2, "ready", "c2", 70000)]
      ∧ ¬ ((1 : Int) ≤ 70000 ∧ (70000 : Int) ≤ 65535)
      ∧ deployPort { sampleProject with ID := 70000 } = 73000 := by
  decide

/-- C11, amended: in every successful run the port passed to the single `RunContainer` call
and recorded on the ready deployment is the fixed port of the project when it is non-zero
and `3000 + project_id` otherwise (for a `project_id` below `2^63 - 3000`, where the 64-bit
sum does not wrap). No range check is made: for such a project the port lies in 1..65535
exactly when the fixed port is non-zero and in that range, or is zero and `project_id` is at
most 62535. -/
theorem C11_external_port (env : DeployEnv) (project : Project) (w : World)
    (hwf : WellKeyed w.db) (hf : FreshKey env.newID w.db)
    (hok : failingPhase env project = none) (hid : project.ID < 2 ^ 63 - 3000) :
    (∃ created ∈ (handleDeploy env project w).db,
        created.ID = env.newID ∧ created.Status = StatusReady
          ∧ created.Port = deployPort project) ∧
      (∃ img name iport envl vols cid err,
        (handleDeploy env project w).trace.filter Effect.isRun
          = w.trace.filter Effect.isRun
            ++ [.runContainer img name (deployPort project) iport envl vols cid err]) ∧
      (project.CustomPort ≠ 0 → deployPort project = project.CustomPort) ∧
      (project.CustomPort = 0 → deployPort project = 3000 + (project.ID : Int)) ∧
      ((1 ≤ deployPort project ∧ deployPort project ≤ 65535)
        ↔ (project.CustomPort ≠ 0 ∧ 1 ≤ project.CustomPort ∧ project.CustomPort ≤ 65535)
          ∨ (project.CustomPort = 0 ∧ project.ID ≤ 62535)) := by
  refine ⟨?_, ?_, deployPort_fixed project, fun h => deployPort_default project h hid, ?_⟩
  · rw [handleDeploy_db env project w hwf hf, hok]
    exact ⟨_, List.mem_append_right _ (List.mem_singleton_self _), rfl, rfl, rfl⟩
  · rw [handleDeploy_trace env project w hf, List.filter_append,
      runEffects_runs env project w.db (Or.inl hok)]
    exact ⟨_, _, _, _, _, _, _, rfl⟩
  · by_cases h : project.CustomPort = 0
    · rw [deployPort_default project h hid]
      constructor
      · intro hr
        exact Or.inr ⟨h, by omega⟩
      · rintro (⟨hne, _⟩ | ⟨_, hle⟩)
        · exact absurd h hne
        · omega
    · rw [deployPort_fixed project h]
      constructor
      · intro hr
        exact Or.inl ⟨h, hr⟩
      · rintro (⟨_, hr⟩ | ⟨h0, _⟩)
        · exact hr
        · exact absurd h0 h

theorem C11_external_port_witness :
    ∃ created ∈ (handleDeploy sampleEnv sampleProject sampleWorld).db,
        created.ID = sampleEnv.newID ∧ created.Status = StatusReady
          ∧ created.Port = deployPort sampleProject :=
  (C11_external_port sampleEnv sampleProject sampleWorld (by decide) (by decide) (by decide)
    (by decide)).1

/-! ## Claim C12: the synthesized recipe -/

theorem terminatedLines_append (a b : List String) :
    terminatedLines (a ++ b) = terminatedLines a ++ terminatedLines b := by
  induction a with
  | nil => simp [terminatedLines]
  | cons x xs ih => simp [terminatedLines, ih, String.append_assoc]

theorem intercalate_go_terminated (acc : String) (l : List String) :
    String.intercalate.go acc "\n" l ++ "\n" = acc ++ "\n" ++ terminatedLines l := by
  induction l generalizing acc with
  | nil => simp [String.intercalate.go, terminatedLines]
  | cons a as ih =>
    simp only [String.intercalate.go, terminatedLines]
    rw [ih]
    simp only [String.append_assoc]

theorem intercalate_terminated (l : List String) (h : l ≠ []) :
    String.intercalate "\n" l ++ "\n" = terminatedLines l := by
  cases l with
  | nil => exact absurd rfl h
  | cons a as =>
    simp only [String.intercalate, terminatedLines]
    exact intercalate_go_terminated a as

theorem terminated_pairs (entries : List EnvVar) :
    terminatedLines
        (entries.map (fun ev => "ARG " ++ ev.Key ++ "\nENV " ++ ev.Key ++ "=$" ++ ev.Key))
      = terminatedLines (envDeclarations entries) := by
  induction entries with
  | nil => rfl
  | cons ev rest ih =>
    simp only [List.map_cons, terminatedLines, envDeclarations, ih]
    have h : ("\nENV " : String) = "\n" ++ "ENV " := by decide
    rw [h]
    simp only [String.append_assoc]

/-- The environment slot of the template, as the code fills it, is the block of
declaration lines. -/
theorem envInject_terminated (entries : List EnvVar) :
    String.intercalate "\n"
        (entries.map (fun ev => "ARG " ++ ev.Key ++ "\nENV " ++ ev.Key ++ "=$" ++ ev.Key))
        ++ "\n"
      = terminatedLines
          (if envDeclarations entries = [] then [""] else envDeclarations entries) := by
  cases entries with
  | nil => simp [envDeclarations, terminatedLines, String.intercalate]
  | cons ev rest =>
    rw [intercalate_terminated _ (by simp), terminated_pairs]
    simp [envDeclarations]

/-- The template of the code, slot by slot, is the text of `recipeLines`. -/
theorem dockerfileContent_lines (e : String) (envLines : List String) (l i b : String)
    (p : Int) (s : String)
    (he : e ++ "\n" = terminatedLines (if envLines = [] then [""] else envLines)) :
    dockerfileContent e l i b p s = terminatedLines (recipeLines envLines l i b p s) := by
  unfold recipeLines
  rw [terminatedLines_append, terminatedLines_append, ← he]
  unfold dockerfileContent
  simp only [terminatedLines]
  have h1 : ("\n# Build Stage\nFROM oven/bun:latest AS builder\nWORKDIR /app\n" : String)
      = "" ++ ("\n" ++ ("# Build Stage" ++ ("\n" ++ ("FROM oven/bun:latest AS builder" ++
          ("\n" ++ ("WORKDIR /app" ++ "\n")))))) := by decide
  have h2 : ("\nCOPY package.json " : String) = "\n" ++ "COPY package.json " := by decide
  have h3 : (" ./\nRUN " : String) = " ./" ++ ("\n" ++ "RUN ") := by decide
  have h4 : ("\nCOPY . .\n" : String) = "\n" ++ ("COPY . ." ++ "\n") := by decide
  have h5 : ("\n\n# Production Stage\nFROM oven/bun:latest\nWORKDIR /app\n" : String)
      = "\n" ++ ("" ++ ("\n" ++ ("# Production Stage" ++ ("\n" ++ ("FROM oven/bun:latest" ++
          ("\n" ++ ("WORKDIR /app" ++ "\n"))))))) := by decide
  have h6 : ("COPY --from=builder /app ./\nEXPOSE " : String)
      = "COPY --from=builder /app ./" ++ ("\n" ++ "EXPOSE ") := by decide
  have h7 : ("\nCMD [\"sh\", \"-c\", \"" : String) = "\n" ++ "CMD [\"sh\", \"-c\", \"" := by
    decide
  have h8 : ("\"]\n" : String) = "\"]" ++ "\n" := by decide
  rw [h1, h2, h3, h4, h5, h6, h7, h8]
  simp only [String.append_assoc, String.append_empty]

/-- The text the code synthesizes is the recipe as the specification words it. -/
theorem synthesized_eq_specified (bunLockExists : Bool) (project : Project) :
    synthesizedDockerfile bunLockExists project = recipeAsSpecified bunLockExists project := by
  unfold synthesizedDockerfile recipeAsSpecified
  simp only []
  rw [dockerfileContent_lines _ (envDeclarations project.EnvVars) _ _ _ _ _
    (envInject_terminated project.EnvVars)]
  cases bunLockExists <;> by_cases hb : project.BuildCommand = "" <;> simp [hb]

theorem recipeWritten_iff (env : DeployEnv) (project : Project) :
    recipeWritten env project = true
      ↔ (env.dockerfileMissing = true ∨ project.InstallCommand ≠ ""
          ∨ project.BuildCommand ≠ "") := by
  unfold recipeWritten
  simp only [Bool.or_eq_true, bne_iff_ne, ne_eq]
  tauto

theorem recipeEffects_writes (env : DeployEnv) (project : Project) :
    (recipeEffects env project).filter Effect.isRecipeWrite
      = if recipeWritten env project = true then
          [.writeDockerfile (synthesizedDockerfile env.bunLockExists project) env.writeErr]
        else [] := by
  unfold recipeEffects
  split_ifs <;> simp [Effect.isRecipeWrite]

theorem syncEffects_writes (env : DeployEnv) (project : Project) :
    (syncEffects env project).filter Effect.isRecipeWrite = [] := by
  unfold syncEffects
  split_ifs <;> simp [Effect.isRecipeWrite]

theorem buildEffects_writes (env : DeployEnv) (project : Project) :
    (buildEffects env project).filter Effect.isRecipeWrite = [] := by
  unfold buildEffects
  rw [List.filter_append, filter_logs_nil _ _ (fun _ => rfl)]
  simp [Effect.isRecipeWrite]

theorem retireEffects_writes (env : DeployEnv) (found : List Deployment) :
    (retireEffects env found).filter Effect.isRecipeWrite = [] :=
  filter_retireEffects_nil _ env (fun _ _ => rfl) (fun _ _ => rfl) (fun _ => rfl) found

theorem launchEffects_writes (env : DeployEnv) (project : Project) :
    (launchEffects env project).filter Effect.isRecipeWrite = [] := by
  unfold launchEffects
  cases (RunContainer env.run).2 with
  | none => simp [Effect.isRecipeWrite, runCall]
  | some e =>
    simp only []
    split_ifs <;> simp [Effect.isRecipeWrite, runCall, failEffects]

theorem failingPhase_sync_iff (env : DeployEnv) (project : Project) :
    failingPhase env project = some .sourceSync ↔ syncFails env = true := by
  unfold failingPhase
  split_ifs <;> simp_all

/-- The recipe writes of a run: none when the source sync fails, otherwise the one of the
build-context phase. -/
theorem runEffects_writes (env : DeployEnv) (project : Project) (rows : List Deployment) :
    (runEffects env project rows).filter Effect.isRecipeWrite
      = if syncFails env = true then []
        else (recipeEffects env project).filter Effect.isRecipeWrite := by
  have hs := failingPhase_sync_iff env project
  unfold runEffects
  by_cases h1 : syncFails env = true
  · rw [if_pos h1, hs.mpr h1]
    simp [List.filter_append, syncEffects_writes, failEffects, Effect.isRecipeWrite]
  · rw [if_neg h1]
    cases hph : failingPhase env project with
    | none =>
      simp [List.filter_append, syncEffects_writes, buildEffects_writes, retireEffects_writes,
        launchEffects_writes, Effect.isRecipeWrite]
    | some ph =>
      cases ph with
      | sourceSync => exact absurd (hs.mp hph) h1
      | buildContext =>
        simp [List.filter_append, syncEffects_writes, failEffects, Effect.isRecipeWrite]
      | imageBuild =>
        simp [List.filter_append, syncEffects_writes, buildEffects_writes, failEffects,
          Effect.isRecipeWrite]
      | launch =>
        simp [List.filter_append, syncEffects_writes, buildEffects_writes, retireEffects_writes,
          launchEffects_writes, Effect.isRecipeWrite]

/-- C12: the build-context phase writes a recipe exactly when no recipe file exists or the
install or build command of the project is non-empty, and a run of `handleDeploy` makes
exactly that write when its source sync succeeds (and none when it fails); the text written
is, line by line, the recipe of `recipeAsSpecified`: one `ARG K` line followed by `ENV K=$K`
for each environment entry in order, `RUN` with the install command or `bun install`, a
`RUN <build command>` line only when a build command is configured, `EXPOSE` with the
internal port or 80 when it is 0, and `CMD` with the start command or `bun run start`; in
particular a project with no install, build and start command and no internal port gets
the lines `RUN bun install`, an empty build line, `EXPOSE 80` and the `CMD` line of
`bun run start`. -/
theorem C12_recipe_synthesis (env : DeployEnv) (project : Project) (w : World)
    (hf : FreshKey env.newID w.db) :
    (resolveRecipe env project w).1.trace.filter Effect.isRecipeWrite
        = w.trace.filter Effect.isRecipeWrite ++
          (if env.dockerfileMissing = true ∨ project.InstallCommand ≠ ""
              ∨ project.BuildCommand ≠ "" then
            [.writeDockerfile (recipeAsSpecified env.bunLockExists project) env.writeErr]
           else []) ∧
      (handleDeploy env project w).trace.filter Effect.isRecipeWrite
        = w.trace.filter Effect.isRecipeWrite ++
          (if syncFails env = false ∧ (env.dockerfileMissing = true
              ∨ project.InstallCommand ≠ "" ∨ project.BuildCommand ≠ "") then
            [.writeDockerfile (recipeAsSpecified env.bunLockExists project) env.writeErr]
           else []) ∧
      (project.InstallCommand = "" → project.BuildCommand = "" → project.StartCommand = "" →
        project.InternalPort = 0 →
        recipeAsSpecified env.bunLockExists project
          = terminatedLines
              (["", "# Build Stage", "FROM oven/bun:latest AS builder", "WORKDIR /app"] ++
               (if envDeclarations project.EnvVars = [] then [""]
                else envDeclarations project.EnvVars) ++
               ["COPY package.json "
                  ++ (if env.bunLockExists = true then "bun.lock*" else "bun.lockb*") ++ " ./",
                "RUN bun install", "COPY . .", "", "", "# Production Stage",
                "FROM oven/bun:latest", "WORKDIR /app", "COPY --from=builder /app ./",
                "EXPOSE 80", "CMD [\"sh\", \"-c\", \"bun run start\"]"])) := by
  have hw := recipeWritten_iff env project
  refine ⟨?_, ?_, ?_⟩
  · rw [resolveRecipe_trace, List.filter_append, recipeEffects_writes,
      synthesized_eq_specified]
    by_cases hc : recipeWritten env project = true
    · rw [if_pos hc, if_pos (hw.mp hc)]
    · rw [if_neg hc, if_neg (fun h => hc (hw.mpr h))]
  · rw [handleDeploy_trace env project w hf, List.filter_append, runEffects_writes,
      recipeEffects_writes, synthesized_eq_specified]
    by_cases h1 : syncFails env = true
    · rw [if_pos h1, if_neg (by simp [h1])]
    · rw [if_neg h1]
      have h1f : syncFails env = false := by simpa using h1
      by_cases hc : recipeWritten env project = true
      · rw [if_pos hc, if_pos ⟨h1f, hw.mp hc⟩]
      · rw [if_neg hc, if_neg (fun h => hc (hw.mpr h.2))]
  · intro hi hb hs hp
    unfold recipeAsSpecified recipeLines
    rw [hi, hb, hs, hp]
    have e1 : ("RUN " ++ "bun install" : String) = "RUN bun install" := by decide
    have e2 : ("EXPOSE " ++ toString (80 : Int) : String) = "EXPOSE 80" := by decide
    have e3 : ("CMD [\"sh\", \"-c\", \"" ++ "bun run start" ++ "\"]" : String)
        = "CMD [\"sh\", \"-c\", \"bun run start\"]" := by decide
    simp only [if_true, e1, e2, e3]

set_option maxRecDepth 100000 in
theorem C12_recipe_synthesis_witness :
    (handleDeploy sampleEnv sampleProject sampleWorld).trace.filter Effect.isRecipeWrite
        = [.writeDockerfile
            ("\n# Build Stage\nFROM oven/bun:latest AS builder\nWORKDIR /app\n\n" ++
             "COPY package.json bun.lockb* ./\nRUN bun install\nCOPY . .\n\n\n" ++
             "# Production Stage\nFROM oven/bun:latest\nWORKDIR /app\n" ++
             "COPY --from=builder /app ./\nEXPOSE 80\nCMD [\"sh\", \"-c\", \"bun run start\"]\n")
            none]
      ∧ (handleDeploy sampleEnv sampleCustomProject sampleWorld).trace.filter
          Effect.isRecipeWrite
        = [.writeDockerfile
            ("\n# Build Stage\nFROM oven/bun:latest AS builder\nWORKDIR /app\n" ++
             "ARG API_KEY\nENV API_KEY=$API_KEY\nARG MODE\nENV MODE=$MODE\n" ++
             "COPY package.json bun.lockb* ./\nRUN npm ci\nCOPY . .\nRUN npm run build\n\n" ++
             "# Production Stage\nFROM oven/bun:latest\nWORKDIR /app\n" ++
             "COPY --from=builder /app ./\nEXPOSE 8080\nCMD [\"sh\", \"-c\", \"node server.js\"]\n")
            none] := by
  have h := (C12_recipe_synthesis sampleEnv sampleProject sampleWorld (by decide)).2.1
  have hc := (C12_recipe_synthesis sampleEnv sampleCustomProject sampleWorld (by decide)).2.1
  rw [h, hc]
  decide

/-! ## Claim C13: retirement precedes the launch -/

theorem failingPhase_of_built (env : DeployEnv) (project : Project)
    (hsync : syncFails env = false) (hwrite : writeFails env project = false)
    (hbuild : (buildOutcome env).2 = none) :
    failingPhase env project = none ∨ failingPhase env project = some .launch := by
  unfold failingPhase
  simp only [hsync, hwrite, hbuild, Option.isSome_none, Bool.false_eq_true, if_false]
  split_ifs
  · exact Or.inr rfl
  · exact Or.inl rfl

theorem runEffects_of_built (env : DeployEnv) (project : Project) (rows : List Deployment)
    (h : failingPhase env project = none ∨ failingPhase env project = some .launch) :
    runEffects env project rows
      = [.dbCreate (newDeployment env project), .broadcastStatus project.ID StatusBuilding 0] ++
          syncEffects env project ++
          (recipeEffects env project ++ buildEffects env project ++
            [.dbSave { newDeployment env project with Logs := (buildOutcome env).1 }] ++
            retireEffects env (findLive project.ID rows) ++ launchEffects env project) := by
  unfold runEffects
  rcases h with h | h <;> rw [h]

theorem retireEffects_infix (env : DeployEnv) (found : List Deployment) (d : Deployment)
    (hd : d ∈ found) :
    [Effect.stopContainer d.ContainerID (env.stopErr d.ContainerID),
      Effect.removeContainer d.ContainerID (env.removeErr d.ContainerID),
      Effect.dbRetire d.ID] <:+: retireEffects env found := by
  induction found with
  | nil => simp at hd
  | cons x xs ih =>
    unfold retireEffects
    rcases List.mem_cons.mp hd with rfl | hx
    · exact (List.prefix_append _ _).isInfix
    · exact (ih hx).trans (List.suffix_append _ _).isInfix

/-- C13: in every run of `handleDeploy` whose image build succeeds, the trace of the run has
the stop call, the forced removal and the clearing of the row of every deployment of the
project that held a container identity, in one block, followed by the announcement and the
single `RunContainer` call; nothing before or after that block calls `RunContainer`, and the
call is made whatever the stop and removal calls return. -/
theorem C13_retire_before_launch (env : DeployEnv) (project : Project) (w : World)
    (hf : FreshKey env.newID w.db) (hsync : syncFails env = false)
    (hwrite : writeFails env project = false) (hbuild : (buildOutcome env).2 = none) :
    ∃ pre post,
      (handleDeploy env project w).trace
          = w.trace ++ pre ++ retireEffects env (findLive project.ID w.db)
              ++ [.broadcastLogs project.ID "Starting container...\n", runCall env project]
              ++ post
        ∧ pre.filter Effect.isRun = []
        ∧ (retireEffects env (findLive project.ID w.db)).filter Effect.isRun = []
        ∧ post.filter Effect.isRun = []
        ∧ ∀ d ∈ w.db, d.ProjectID = project.ID → d.ContainerID ≠ "" →
            [Effect.stopContainer d.ContainerID (env.stopErr d.ContainerID),
              Effect.removeContainer d.ContainerID (env.removeErr d.ContainerID),
              Effect.dbRetire d.ID] <:+: retireEffects env (findLive project.ID w.db) := by
  have hph := failingPhase_of_built env project hsync hwrite hbuild
  refine ⟨[.dbCreate (newDeployment env project), .broadcastStatus project.ID StatusBuilding 0]
      ++ syncEffects env project ++ (recipeEffects env project ++ buildEffects env project
      ++ [.dbSave { newDeployment env project with Logs := (buildOutcome env).1 }]),
    (launchEffects env project).drop 2, ?_, ?_, retireEffects_runs env _, ?_, ?_⟩
  · rw [handleDeploy_trace env project w hf, runEffects_of_built env project w.db hph]
    have hl : launchEffects env project
        = [.broadcastLogs project.ID "Starting container...\n", runCall env project]
          ++ (launchEffects env project).drop 2 := by
      unfold launchEffects
      simp
    conv_lhs => rw [hl]
    simp only [List.append_assoc]
  · simp [List.filter_append, syncEffects_runs, recipeEffects_runs, buildEffects_runs,
      Effect.isRun]
  · unfold launchEffects
    cases (RunContainer env.run).2 with
    | none => simp [Effect.isRun]
    | some e =>
      simp only []
      split_ifs <;> simp [Effect.isRun, failEffects]
  · intro d hd hp hc
    exact retireEffects_infix env _ d ((mem_findLive project.ID w.db d).mpr ⟨hd, hp, hc⟩)

theorem C13_retire_before_launch_witness :
    ∃ pre post,
      (handleDeploy sampleEnvRetireFails sampleProject sampleWorld).trace
          = sampleWorld.trace ++ pre
              ++ retireEffects sampleEnvRetireFails (findLive sampleProject.ID sampleWorld.db)
              ++ [.broadcastLogs sampleProject.ID "Starting container...\n",
                  runCall sampleEnvRetireFails sampleProject]
              ++ post
        ∧ pre.filter Effect.isRun = []
        ∧ (retireEffects sampleEnvRetireFails
            (findLive sampleProject.ID sampleWorld.db)).filter Effect.isRun = []
        ∧ post.filter Effect.isRun = []
        ∧ ∀ d ∈ sampleWorld.db, d.ProjectID = sampleProject.ID → d.ContainerID ≠ "" →
            [Effect.stopContainer d.ContainerID (sampleEnvRetireFails.stopErr d.ContainerID),
              Effect.removeContainer d.ContainerID (sampleEnvRetireFails.removeErr d.ContainerID),
              Effect.dbRetire d.ID]
              <:+: retireEffects sampleEnvRetireFails (findLive sampleProject.ID sampleWorld.db) :=
  C13_retire_before_launch sampleEnvRetireFails sampleProject sampleWorld (by decide)
    (by decide) (by decide) (by decide)

/-! ## Claim C14: the events of a run -/

theorem syncEffects_events (env : DeployEnv) (project : Project) :
    (syncEffects env project).filter Effect.isEvent
      = [.broadcastLogs project.ID
          (if env.gitDirMissing = true then "Cloning repository...\n"
           else "Updating repository...\n")] := by
  unfold syncEffects
  split_ifs <;> simp [Effect.isEvent]

theorem recipeEffects_events (env : DeployEnv) (project : Project) :
    (recipeEffects env project).filter Effect.isEvent
      = if recipeWritten env project = true then
          [.broadcastLogs project.ID "Generating build pipeline...\n"]
        else [] := by
  unfold recipeEffects
  split_ifs <;> simp [Effect.isEvent]

theorem buildEffects_events (env : DeployEnv) (project : Project) :
    (buildEffects env project).filter Effect.isEvent
      = (receivedLines env.build).map (fun l => Effect.broadcastLogs project.ID l) := by
  unfold buildEffects
  rw [List.filter_append, filter_logs_all _ _ (fun _ => rfl)]
  simp [Effect.isEvent]

theorem retireEffects_events (env : DeployEnv) (found : List Deployment) :
    (retireEffects env found).filter Effect.isEvent = [] :=
  filter_retireEffects_nil _ env (fun _ _ => rfl) (fun _ _ => rfl) (fun _ => rfl) found

theorem failEffects_events (env : DeployEnv) (project : Project) (ph : Phase) :
    (failEffects env project ph).filter Effect.isEvent
      = [.broadcastStatus project.ID StatusFailed 0] := by
  simp [failEffects, Effect.isEvent]

theorem launchEffects_events (env : DeployEnv) (project : Project) :
    (launchEffects env project).filter Effect.isEvent
      = [.broadcastLogs project.ID "Starting container...\n",
          if (RunContainer env.run).2.isSome = true then
            .broadcastStatus project.ID StatusFailed 0
          else .broadcastStatus project.ID StatusReady (deployPort project)] := by
  unfold launchEffects
  cases (RunContainer env.run).2 with
  | none => simp [Effect.isEvent, runCall]
  | some e =>
    by_cases hc : (RunContainer env.run).1 ≠ "" <;>
      simp [hc, Effect.isEvent, runCall, failEffects]

theorem logs_filter_status (pid : Nat) (lines : List String) :
    (lines.map (fun l => Effect.broadcastLogs pid l)).filter Effect.isStatus = [] :=
  filter_logs_nil _ _ (fun _ => rfl) lines

/-- The events of a run: the `building` status, log events (those of the build lines in the
middle), the terminal status. -/
theorem runEffects_events (env : DeployEnv) (project : Project) (rows : List Deployment) :
    ∃ before after,
      (runEffects env project rows).filter Effect.isEvent
          = Effect.broadcastStatus project.ID StatusBuilding 0 ::
              (before ++
                (if syncFails env = true ∨ writeFails env project = true then []
                 else (receivedLines env.build).map (fun l => Effect.broadcastLogs project.ID l))
                ++ after)
            ++ [terminalEvent env project]
        ∧ before.filter Effect.isStatus = [] ∧ after.filter Effect.isStatus = [] := by
  unfold runEffects terminalEvent failingPhase
  by_cases h1 : syncFails env = true
  · refine ⟨(syncEffects env project).filter Effect.isEvent, [], ?_, ?_, rfl⟩
    · simp [h1, List.filter_append, failEffects_events, Effect.isEvent]
    · rw [syncEffects_events]; simp [Effect.isStatus]
  · by_cases h2 : writeFails env project = true
    · refine ⟨(syncEffects env project).filter Effect.isEvent
        ++ (recipeEffects env project).filter Effect.isEvent, [], ?_, ?_, rfl⟩
      · simp [h1, h2, List.filter_append, failEffects_events, Effect.isEvent]
      · rw [syncEffects_events, recipeEffects_events]
        split_ifs <;> simp [Effect.isStatus]
    · have hb : ((syncEffects env project).filter Effect.isEvent
          ++ (recipeEffects env project).filter Effect.isEvent).filter Effect.isStatus
          = [] := by
        rw [syncEffects_events, recipeEffects_events]
        split_ifs <;> simp [Effect.isStatus]
      cases h3 : (buildOutcome env).2 with
      | some e =>
        refine ⟨(syncEffects env project).filter Effect.isEvent
          ++ (recipeEffects env project).filter Effect.isEvent, [], ?_, hb, rfl⟩
        simp [h1, h2, List.filter_append, failEffects_events, buildEffects_events,
          Effect.isEvent]
      | none =>
        refine ⟨(syncEffects env project).filter Effect.isEvent
          ++ (recipeEffects env project).filter Effect.isEvent,
          [.broadcastLogs project.ID "Starting container...\n"], ?_, hb, rfl⟩
        cases h4 : (RunContainer env.run).2 with
        | some e =>
          simp [h1, h2, h4, List.filter_append, buildEffects_events, retireEffects_events,
            launchEffects_events, Effect.isEvent]
        | none =>
          simp [h1, h2, h4, List.filter_append, buildEffects_events, retireEffects_events,
            launchEffects_events, Effect.isEvent]

/-- The row of the deployment created by a run, by outcome. -/
theorem handleDeploy_created (env : DeployEnv) (project : Project) (w : World)
    (hwf : WellKeyed w.db) (hf : FreshKey env.newID w.db) :
    ∃ created ∈ (handleDeploy env project w).db, created.ID = env.newID ∧
      ((failingPhase env project = none ∧ created.Status = StatusReady
          ∧ created.Port = deployPort project)
        ∨ (failingPhase env project ≠ none ∧ created.Status = StatusFailed)) := by
  rw [handleDeploy_db env project w hwf hf]
  cases hph : failingPhase env project with
  | none =>
    exact ⟨_, List.mem_append_right _ (List.mem_singleton_self _), rfl,
      Or.inl ⟨rfl, rfl, rfl⟩⟩
  | some ph =>
    cases ph <;>
      exact ⟨_, List.mem_append_right _ (List.mem_singleton_self _), rfl,
        Or.inr ⟨by simp, rfl⟩⟩

/-- C14: the events published by a run of `handleDeploy` start with the status event
`building` with port 0 and end with the terminal status event, `ready` with the port
recorded on the deployment when no phase fails and `failed` with port 0 otherwise; these
are the only two status events of the run, the status of the terminal event is the status
saved on the deployment, and when the build is reached the lines `BuildImage` passes to its
callback are published as log events, in order and in one block, between the two. -/
theorem C14_run_events (env : DeployEnv) (project : Project) (w : World)
    (hwf : WellKeyed w.db) (hf : FreshKey env.newID w.db) :
    ∃ published before after,
      published = ((handleDeploy env project w).trace.drop w.trace.length).filter Effect.isEvent
        ∧ published
            = Effect.broadcastStatus project.ID StatusBuilding 0 ::
                (before ++
                  (if syncFails env = true ∨ writeFails env project = true then []
                   else (receivedLines env.build).map
                     (fun l => Effect.broadcastLogs project.ID l))
                  ++ after)
              ++ [terminalEvent env project]
        ∧ before.filter Effect.isStatus = [] ∧ after.filter Effect.isStatus = []
        ∧ published.head? = some (.broadcastStatus project.ID StatusBuilding 0)
        ∧ published.getLast? = some (terminalEvent env project)
        ∧ published.filter Effect.isStatus
            = [.broadcastStatus project.ID StatusBuilding 0, terminalEvent env project]
        ∧ ∃ created ∈ (handleDeploy env project w).db, created.ID = env.newID ∧
            ((failingPhase env project = none ∧ created.Status = StatusReady
                ∧ terminalEvent env project
                  = .broadcastStatus project.ID created.Status created.Port)
              ∨ (failingPhase env project ≠ none ∧ created.Status = StatusFailed
                ∧ terminalEvent env project = .broadcastStatus project.ID created.Status 0)) := by
  obtain ⟨before, after, hev, hbefore, hafter⟩ := runEffects_events env project w.db
  have hdrop : (handleDeploy env project w).trace.drop w.trace.length
      = runEffects env project w.db := by
    rw [handleDeploy_trace env project w hf]
    exact List.drop_left _ _
  have hterm : Effect.isStatus (terminalEvent env project) = true := by
    unfold terminalEvent
    cases failingPhase env project <;> rfl
  refine ⟨_, before, after, rfl, ?_, hbefore, hafter, ?_, ?_, ?_, ?_⟩
  · rw [hdrop, hev]
  · rw [hdrop, hev]; rfl
  · rw [hdrop, hev]
    exact List.getLast?_concat _
  · rw [hdrop, hev]
    have hb0 : Effect.isStatus (.broadcastStatus project.ID StatusBuilding 0) = true := rfl
    have hmid : (if syncFails env = true ∨ writeFails env project = true then []
        else (receivedLines env.build).map (fun l => Effect.broadcastLogs project.ID l)).filter
        Effect.isStatus = [] := by
      split_ifs
      · rfl
      · exact logs_filter_status _ _
    simp [List.filter_cons, List.filter_append, hbefore, hafter, hmid, hterm, hb0]
  · obtain ⟨created, hmem, hid, hcase⟩ := handleDeploy_created env project w hwf hf
    refine ⟨created, hmem, hid, ?_⟩
    rcases hcase with ⟨hph, hst, hport⟩ | ⟨hph, hst⟩
    · left
      refine ⟨hph, hst, ?_⟩
      unfold terminalEvent
      rw [hph, hst, hport]
    · right
      refine ⟨hph, hst, ?_⟩
      unfold terminalEvent
      cases hp : failingPhase env project with
      | none => exact absurd hp hph
      | some ph => simp only [hst]

theorem C14_run_events_witness :
    ∃ published before after,
      published = ((handleDeploy sampleEnv sampleProject sampleWorld).trace.drop
          sampleWorld.trace.length).filter Effect.isEvent
        ∧ published
            = Effect.broadcastStatus sampleProject.ID StatusBuilding 0 ::
                (before ++
                  (if syncFails sampleEnv = true ∨ writeFails sampleEnv sampleProject = true
                   then []
                   else (receivedLines sampleEnv.build).map
                     (fun l => Effect.broadcastLogs sampleProject.ID l))
                  ++ after)
              ++ [terminalEvent sampleEnv sampleProject]
        ∧ before.filter Effect.isStatus = [] ∧ after.filter Effect.isStatus = []
        ∧ published.head? = some (.broadcastStatus sampleProject.ID StatusBuilding 0)
        ∧ published.getLast? = some (terminalEvent sampleEnv sampleProject)
        ∧ published.filter Effect.isStatus
            = [.broadcastStatus sampleProject.ID StatusBuilding 0,
                terminalEvent sampleEnv sampleProject]
        ∧ ∃ created ∈ (handleDeploy sampleEnv sampleProject sampleWorld).db,
            created.ID = sampleEnv.newID ∧
            ((failingPhase sampleEnv sampleProject = none ∧ created.Status = StatusReady
                ∧ terminalEvent sampleEnv sampleProject
                  = .broadcastStatus sampleProject.ID created.Status created.Port)
              ∨ (failingPhase sampleEnv sampleProject ≠ none ∧ created.Status = StatusFailed
                ∧ terminalEvent sampleEnv sampleProject
                  = .broadcastStatus sampleProject.ID created.Status 0)) :=
  C14_run_events sampleEnv sampleProject sampleWorld (by decide) (by decide)

/-! ## Claim C15: deployment triggers -/

/-- C15, as stated, fails: two deploy calls for project 7, the second arriving while the run
started by the first is in progress, leave two runs of project 7 in progress at once, and
the second call is answered 202 like the first; a matching webhook arriving during a run
starts a further run as well. -/
theorem C15_counterexample_parallel_runs :
    (deployRoute (some sampleProject) (deployRoute (some sampleProject) ⟨[]⟩).1).1.running
        = [sampleProject, sampleProject]
      ∧ (deployRoute (some sampleProject) (deployRoute (some sampleProject) ⟨[]⟩).1).2
        = ⟨202, "message", "Deployment started"⟩
      ∧ (webhookRoute (some sampleProject) "main" "github" (some "refs/heads/main")
          (deployRoute (some sampleProject) ⟨[]⟩).1).1.running
        = [sampleProject, sampleProject]
      ∧ (webhookRoute (some sampleProject) "main" "github" (some "refs/heads/main")
          (deployRoute (some sampleProject) ⟨[]⟩).1).2
        = ⟨202, "message", "Deployment triggered"⟩ := by
  decide

/-- C15, amended: deployment triggers are not serialized. Whatever runs are in progress, a
deploy call for a project and a webhook of provider `github` or `gitlab` whose branch
matches each start one more run for that project at once and answer 202: the number of runs
of the project in progress grows by one, also when it was already positive. -/
theorem C15_triggers_not_serialized (project : Project) (s : Server)
    (webhookBranch provider ref : String)
    (hprov : provider = "github" ∨ provider = "gitlab")
    (hbranch : trimLeading ref "refs/heads/" = webhookBranch ∨ webhookBranch = "") :
    (deployRoute (some project) s).1.running = s.running ++ [project]
      ∧ (deployRoute (some project) s).2 = ⟨202, "message", "Deployment started"⟩
      ∧ ((deployRoute (some project) s).1.running.filter (fun p => p.ID == project.ID)).length
          = (s.running.filter (fun p => p.ID == project.ID)).length + 1
      ∧ (webhookRoute (some project) webhookBranch provider (some ref) s).1.running
          = s.running ++ [project]
      ∧ (webhookRoute (some project) webhookBranch provider (some ref) s).2
          = ⟨202, "message", "Deployment triggered"⟩
      ∧ ((webhookRoute (some project) webhookBranch provider (some ref) s).1.running.filter
            (fun p => p.ID == project.ID)).length
          = (s.running.filter (fun p => p.ID == project.ID)).length + 1 := by
  have hm : webhookMatches webhookBranch (some ref) = true := by
    unfold webhookMatches
    rcases hbranch with h | h
    · simp [h]
    · simp [h]
  have htrig : (if provider = "github" then webhookMatches webhookBranch (some ref)
      else if provider = "gitlab" then webhookMatches webhookBranch (some ref)
      else false) = true := by
    rcases hprov with h | h
    · rw [if_pos h]; exact hm
    · split_ifs <;> exact hm
  have hcount : ((s.running ++ [project]).filter (fun p => p.ID == project.ID)).length
      = (s.running.filter (fun p => p.ID == project.ID)).length + 1 := by
    simp [List.filter_append]
  refine ⟨rfl, rfl, hcount, ?_, ?_, ?_⟩
  · unfold webhookRoute
    simp only [htrig, if_true]
  · unfold webhookRoute
    simp only [htrig, if_true]
  · unfold webhookRoute
    simp only [htrig, if_true]
    exact hcount

theorem C15_triggers_not_serialized_witness :
    (webhookRoute (some sampleProject) "" "gitlab" (some "refs/heads/dev")
        ⟨[sampleProject]⟩).1.running = [sampleProject] ++ [sampleProject] :=
  (C15_triggers_not_serialized sampleProject ⟨[sampleProject]⟩ "" "gitlab" "refs/heads/dev"
    (by decide) (by decide)).2.2.2.1

/-! ## Claim C9: the log of a failed deployment -/

theorem syncEffects_storeWrites (env : DeployEnv) (project : Project) :
    (syncEffects env project).filter Effect.isStoreWrite = [] := by
  unfold syncEffects
  split_ifs <;> rfl

theorem recipeEffects_storeWrites (env : DeployEnv) (project : Project) :
    (recipeEffects env project).filter Effect.isStoreWrite = [] := by
  unfold recipeEffects
  split_ifs <;> rfl

theorem buildEffects_storeWrites (env : DeployEnv) (project : Project) :
    (buildEffects env project).filter Effect.isStoreWrite = [] := by
  unfold buildEffects
  rw [List.filter_append, List.filter_map]
  have h : List.filter (Effect.isStoreWrite ∘ fun l => Effect.broadcastLogs project.ID l)
      (receivedLines env.build) = [] := by
    rw [List.filter_eq_nil_iff]
    intro a _
    simp [Effect.isStoreWrite]
  rw [h]
  rfl

theorem failEffects_storeWrites (env : DeployEnv) (project : Project) (ph : Phase) :
    (failEffects env project ph).filter Effect.isStoreWrite
      = [.dbSave { newDeployment env project with
            Status := StatusFailed, Logs := diagnosticText env ph }] := rfl

/-- C9, amended: (1) for a source sync, recipe write or image build failure in
`handleDeploy`, on any table (an empty one included), the run writes to the table exactly
twice, the creation of the deployment with an empty log and the save of the failure, so the
log before the failure is the empty log of the created row; the log of that row after the
failure is its log before the failure followed by the diagnostic text of the failure, the
text of a build failure embedding the transcript accumulated so far. (2) Independently, for
the container-gone condition in pause and resume the log of the targeted deployment is left
as it was and no diagnostic text is recorded. (The launch failure is left out.) -/
theorem C9_failure_logs :
    (∀ (env : DeployEnv) (project : Project) (w : World) (ph : Phase),
      WellKeyed w.db → FreshKey env.newID w.db →
      failingPhase env project = some ph → ph ≠ .launch →
      ((handleDeploy env project w).trace.drop w.trace.length).filter Effect.isStoreWrite
          = [.dbCreate (newDeployment env project),
             .dbSave { newDeployment env project with
               Status := StatusFailed, Logs := diagnosticText env ph }] ∧
        ∃ created ∈ (handleDeploy env project w).db,
          created.ID = env.newID ∧ (newDeployment env project).Logs = "" ∧
          created.Logs = (newDeployment env project).Logs ++ diagnosticText env ph ∧
          (ph = .imageBuild → created.Logs
            = "Build failed: " ++ errorText (buildOutcome env).2 ++ "\nLogs:\n"
                ++ (buildOutcome env).1)) ∧
    (∀ (call : String → Option String) (id : Nat) (w : World) (d : Deployment) (msg : String),
      latestLive id w.db = some d → call d.ContainerID = some msg →
      strContains msg "No such container" = true →
      (strContains msg "already stopped" = false →
        ∃ d1 ∈ (pauseHandler call id w).1.db,
          d1.ID = d.ID ∧ d1.Status = StatusFailed ∧ d1.Logs = d.Logs) ∧
      (strContains msg "already started" = false →
        ∃ d1 ∈ (resumeHandler call id w).1.db,
          d1.ID = d.ID ∧ d1.Status = StatusFailed ∧ d1.Logs = d.Logs)) := by
  constructor
  · intro env project w ph hwf hf hph hl
    constructor
    · rw [handleDeploy_trace env project w hf, List.drop_left]
      unfold runEffects
      rw [hph]
      cases ph with
      | launch => exact absurd rfl hl
      | sourceSync =>
        simp only [List.filter_append, syncEffects_storeWrites, failEffects_storeWrites]
        rfl
      | buildContext =>
        simp only [List.filter_append, syncEffects_storeWrites, recipeEffects_storeWrites,
          failEffects_storeWrites]
        rfl
      | imageBuild =>
        simp only [List.filter_append, syncEffects_storeWrites, recipeEffects_storeWrites,
          buildEffects_storeWrites, failEffects_storeWrites]
        rfl
    · have hdb := handleDeploy_db env project w hwf hf
      rw [hph] at hdb
      have key : (handleDeploy env project w).db
          = w.db ++ [{ newDeployment env project with
              Status := StatusFailed, Logs := diagnosticText env ph }] := by
        cases ph with
        | launch => exact absurd rfl hl
        | sourceSync => exact hdb
        | buildContext => exact hdb
        | imageBuild => exact hdb
      rw [key]
      refine ⟨_, List.mem_append_right _ (List.mem_singleton_self _), rfl, rfl, ?_, ?_⟩
      · exact (String.empty_append _).symm
      · intro hb
        subst hb
        rfl
  · intro call id w d msg hlatest herr hgone
    have hd := latestLive_spec id w.db d hlatest
    have hgoneBoth := handlers_container_gone call id w d msg hlatest herr hgone
    constructor
    · intro hnot
      rw [(hgoneBoth.1 hnot).1]
      exact ⟨{ d with Status := StatusFailed, ContainerID := "" },
        List.mem_map.mpr ⟨d, hd.1, if_pos rfl⟩, rfl, rfl, rfl⟩
    · intro hnot
      rw [(hgoneBoth.2 hnot).1]
      exact ⟨{ d with Status := StatusFailed, ContainerID := "" },
        List.mem_map.mpr ⟨d, hd.1, if_pos rfl⟩, rfl, rfl, rfl⟩

theorem C9_failure_logs_witness :
    (((handleDeploy sampleEnvCloneFails sampleProject ⟨[], []⟩).trace.drop 0).filter
          Effect.isStoreWrite
        = [.dbCreate (newDeployment sampleEnvCloneFails sampleProject),
           .dbSave { newDeployment sampleEnvCloneFails sampleProject with
             Status := StatusFailed,
             Logs := diagnosticText sampleEnvCloneFails Phase.sourceSync }] ∧
      ∃ created ∈ (handleDeploy sampleEnvCloneFails sampleProject ⟨[], []⟩).db,
        created.ID = sampleEnvCloneFails.newID ∧
        (newDeployment sampleEnvCloneFails sampleProject).Logs = "" ∧
        created.Logs = (newDeployment sampleEnvCloneFails sampleProject).Logs
          ++ diagnosticText sampleEnvCloneFails Phase.sourceSync ∧
        (Phase.sourceSync = Phase.imageBuild → created.Logs
          = "Build failed: " ++ errorText (buildOutcome sampleEnvCloneFails).2 ++ "\nLogs:\n"
              ++ (buildOutcome sampleEnvCloneFails).1)) ∧
    (∃ d1 ∈ (pauseHandler (fun _ => some "Error response from daemon: No such container: c1") 7
          sampleWorld).1.db,
        d1.ID = sampleDeployment.ID ∧ d1.Status = StatusFailed ∧
        d1.Logs = sampleDeployment.Logs) :=
  ⟨C9_failure_logs.1 sampleEnvCloneFails sampleProject ⟨[], []⟩ Phase.sourceSync
      (by decide) (by decide) (by decide) (by decide),
   (C9_failure_logs.2 (fun _ => some "Error response from daemon: No such container: c1") 7
      sampleWorld sampleDeployment "Error response from daemon: No such container: c1"
      (by decide) rfl (by decide)).1 (by decide)⟩

end Orchestro
